import Mathlib

/-!
Attributed strings and the text measure cache key.

A shallow embedding of

* `react/renderer/attributedstring/AttributedString.{h,cpp}`,
* `react/renderer/attributedstring/FragmentAttributes.h`, `TextAttributes.cpp`,
* `react/renderer/textlayoutmanager/TextMeasureCache.h`.

Vectors are lists, `size_t` hashes are natural numbers, and the helpers that the
sources include from headers that are not at hand are collected in `Prims`.
-/

namespace React

/-! ## Value types declared outside the sources -/

/-- Modelled from the spec: `Color.h` is not among the sources; the spec treats colours as
comparable, hashable values without structure, here a natural number code. -/
abbrev SharedColor := Nat

/-- Modelled from the spec: `LayoutMetrics.h` is not among the sources; the anchor's resolved
layout box is a comparable, hashable value without structure, here a natural number code. -/
abbrev LayoutMetrics := Nat

/-- Modelled from the spec: `ParagraphAttributes.h` is not among the sources; the spec compares
paragraph attributes by full equality and hashes them, here a natural number code. -/
abbrev ParagraphAttributes := Nat

/-- Modelled from the spec: `Size.h` is not among the sources; a size is a pair of `Float`s
(`Size = (width, height)`), over the carrier `F` of `Float`. -/
structure Size (F : Type) where
  width : F
  height : F
deriving DecidableEq

/-- Modelled from the spec: `ShadowView.h` is not among the sources; the anchor reference of a
fragment. The sources read `tag` and `layoutMetrics`; `others` stands for every member
they never read. -/
structure ShadowView where
  tag : Int
  layoutMetrics : LayoutMetrics
  others : Nat
deriving DecidableEq

/-- Modelled from the spec: `LayoutConstraints.h` is not among the sources; the constraints of a
measurement, of which the cache key reads `maximumSize.width` only. -/
structure LayoutConstraints (F : Type) where
  minimumSize : Size F
  maximumSize : Size F
  layoutDirection : Nat
deriving DecidableEq

/-- The fields of `FragmentAttributes` (FragmentAttributes.h, lines 40-84), in declaration order.
Enumerations are natural number codes, `std::optional` is `Option`, `Float` is `F`. -/
structure FragmentAttributes (F : Type) where
  foregroundColor : SharedColor
  backgroundColor : SharedColor
  opacity : F
  fontFamily : String
  fontSize : F
  fontSizeMultiplier : F
  fontWeight : Option Nat
  fontStyle : Option Nat
  fontVariant : Option Nat
  allowFontScaling : Option Bool
  dynamicTypeRamp : Option Nat
  letterSpacing : F
  textTransform : Option Nat
  lineHeight : F
  alignment : Option Nat
  baseWritingDirection : Option Nat
  lineBreakStrategy : Option Nat
  textDecorationColor : SharedColor
  textDecorationLineType : Option Nat
  textDecorationStyle : Option Nat
  textShadowOffset : Option (Size F)
  textShadowRadius : F
  textShadowColor : SharedColor
  isHighlighted : Option Bool
  isPressable : Option Bool
  layoutDirection : Option Nat
  accessibilityRole : Option Nat
  role : Option Nat
deriving DecidableEq

/-- The attribute set of a fragment under its other name: `AttributedString.h` declares the member
`TextAttributes textAttributes`, `TextMeasureCache.h` reads it as `attributes` of type
`FragmentAttributes`, and `TextAttributes::operator==` compares exactly the fields above. -/
abbrev TextAttributes (F : Type) := FragmentAttributes F

/-! ## Helpers declared outside the sources -/

/-- The functions that the sources call and that are declared in headers outside the sources:
`floatEquality` (react/utils/FloatComparison.h), the step of `hash_combine`
(react/utils/hash_combine.h) that folds one `std::hash` value into a seed, the built-in `==`
of `Float`, and the `std::hash` specialisations of the hashed types. `F` is the carrier of
`Float`. Every definition below takes them as the parameter `U`. -/
structure Prims (F : Type) where
  floatEquality : F → F → Bool
  eqFloat : F → F → Bool
  hash_combine : Nat → Nat → Nat
  hashSizeT : Nat → Nat
  hashString : String → Nat
  hashFloat : F → Nat
  hashOptEnum : Option Nat → Nat
  hashOptBool : Option Bool → Nat
  hashColor : SharedColor → Nat
  hashOptSize : Option (Size F) → Nat
  hashShadowView : ShadowView → Nat
  hashLayoutMetrics : LayoutMetrics → Nat
  hashParagraphAttributes : ParagraphAttributes → Nat

/-- The value-returning `hash_combine(v1, ..., vn)`: starts from seed `0` and folds the
`std::hash` value of each argument, in order, into the seed. -/
def hashCombineAll {F : Type} (U : Prims F) (hashes : List Nat) : Nat :=
  hashes.foldl U.hash_combine 0

/-- Comparison of two vectors as `std::vector::operator==` and the explicit loops of the sources
do it: `false` when the sizes differ, otherwise `p` must hold at every index. -/
def equalSizeAndAll {α : Type} (p : α → α → Bool) (lhs rhs : List α) : Bool :=
  if lhs.length != rhs.length then false
  else (lhs.zip rhs).all fun x => p x.1 x.2

/-- The `operator==` of `Size`: both components by the built-in `==` of `Float`. -/
def Size.beq {F : Type} (U : Prims F) (lhs rhs : Size F) : Bool :=
  U.eqFloat lhs.width rhs.width && U.eqFloat lhs.height rhs.height

/-- The `operator==` of `std::optional<Size>`. -/
def optSizeBeq {F : Type} (U : Prims F) : Option (Size F) → Option (Size F) → Bool
  | none, none => true
  | some a, some b => Size.beq U a b
  | _, _ => false

/-! ## TextAttributes.cpp -/

/-- `TextAttributes::operator==` (TextAttributes.cpp, lines 22-75): the `std::tie` comparison of
22 fields, then `floatEquality` on the six `Float` fields. -/
def TextAttributes.beq {F : Type} (U : Prims F) (lhs rhs : TextAttributes F) : Bool :=
  (lhs.foregroundColor == rhs.foregroundColor &&
    lhs.backgroundColor == rhs.backgroundColor &&
    lhs.fontFamily == rhs.fontFamily &&
    lhs.fontWeight == rhs.fontWeight &&
    lhs.fontStyle == rhs.fontStyle &&
    lhs.fontVariant == rhs.fontVariant &&
    lhs.allowFontScaling == rhs.allowFontScaling &&
    lhs.dynamicTypeRamp == rhs.dynamicTypeRamp &&
    lhs.alignment == rhs.alignment &&
    lhs.baseWritingDirection == rhs.baseWritingDirection &&
    lhs.lineBreakStrategy == rhs.lineBreakStrategy &&
    lhs.textDecorationColor == rhs.textDecorationColor &&
    lhs.textDecorationLineType == rhs.textDecorationLineType &&
    lhs.textDecorationStyle == rhs.textDecorationStyle &&
    optSizeBeq U lhs.textShadowOffset rhs.textShadowOffset &&
    lhs.textShadowColor == rhs.textShadowColor &&
    lhs.isHighlighted == rhs.isHighlighted &&
    lhs.isPressable == rhs.isPressable &&
    lhs.layoutDirection == rhs.layoutDirection &&
    lhs.accessibilityRole == rhs.accessibilityRole &&
    lhs.role == rhs.role &&
    lhs.textTransform == rhs.textTransform) &&
  U.floatEquality lhs.opacity rhs.opacity &&
  U.floatEquality lhs.fontSize rhs.fontSize &&
  U.floatEquality lhs.fontSizeMultiplier rhs.fontSizeMultiplier &&
  U.floatEquality lhs.letterSpacing rhs.letterSpacing &&
  U.floatEquality lhs.lineHeight rhs.lineHeight &&
  U.floatEquality lhs.textShadowRadius rhs.textShadowRadius

/-! ## AttributedString.h, AttributedString.cpp -/

/-- `AttributedString::Fragment` (AttributedString.h, lines 35-69). -/
structure Fragment (F : Type) where
  string : String
  textAttributes : TextAttributes F
  parentShadowView : ShadowView
deriving DecidableEq

/-- `AttributedString::Shard` (AttributedString.h, lines 76-132): the fragment vector, and the
seal flag inherited from `Sealable`. -/
structure Shard (F : Type) where
  fragments_ : List (Fragment F)
  sealed_ : Bool
deriving DecidableEq

/-- `AttributedString` (AttributedString.h, lines 29-235): the shard vector, and the seal flag
inherited from `Sealable`. -/
structure AttributedString (F : Type) where
  shards_ : List (Shard F)
  sealed_ : Bool
deriving DecidableEq

/-- `Fragment::AttachmentCharacter` (AttributedString.cpp, lines 23-30): U+FFFC. -/
def Fragment.AttachmentCharacter : String := "\uFFFC"

/-- `Fragment::isAttachment` (AttributedString.cpp, lines 32-34). -/
def Fragment.isAttachment {F : Type} (self : Fragment F) : Bool :=
  self.string == Fragment.AttachmentCharacter

/-- `Fragment::operator==` (AttributedString.cpp, lines 36-47). -/
def Fragment.beq {F : Type} (U : Prims F) (self rhs : Fragment F) : Bool :=
  self.string == rhs.string &&
  TextAttributes.beq U self.textAttributes rhs.textAttributes &&
  self.parentShadowView.tag == rhs.parentShadowView.tag &&
  self.parentShadowView.layoutMetrics == rhs.parentShadowView.layoutMetrics

/-- `Shard::operator==` (AttributedString.cpp, lines 141-143): `fragments_ == rhs.fragments_`. -/
def Shard.beq {F : Type} (U : Prims F) (self rhs : Shard F) : Bool :=
  equalSizeAndAll (Fragment.beq U) self.fragments_ rhs.fragments_

/-- `AttributedString::operator==` (AttributedString.cpp, lines 295-297):
`shards_ == rhs.shards_`. -/
def AttributedString.beq {F : Type} (U : Prims F) (self rhs : AttributedString F) : Bool :=
  equalSizeAndAll (Shard.beq U) self.shards_ rhs.shards_

/-! ## TextMeasureCache.h -/

/-- `areFragmentAttributesEquivalentLayoutWise` (TextMeasureCache.h, lines 85-111). -/
def areFragmentAttributesEquivalentLayoutWise {F : Type} (U : Prims F)
    (lhs rhs : FragmentAttributes F) : Bool :=
  (lhs.fontFamily == rhs.fontFamily &&
    lhs.fontWeight == rhs.fontWeight &&
    lhs.fontStyle == rhs.fontStyle &&
    lhs.fontVariant == rhs.fontVariant &&
    lhs.allowFontScaling == rhs.allowFontScaling &&
    lhs.dynamicTypeRamp == rhs.dynamicTypeRamp &&
    lhs.alignment == rhs.alignment) &&
  U.floatEquality lhs.fontSize rhs.fontSize &&
  U.floatEquality lhs.fontSizeMultiplier rhs.fontSizeMultiplier &&
  U.floatEquality lhs.letterSpacing rhs.letterSpacing &&
  U.floatEquality lhs.lineHeight rhs.lineHeight

/-- `fragmentAttributesHashLayoutWise` (TextMeasureCache.h, lines 113-129). -/
def fragmentAttributesHashLayoutWise {F : Type} (U : Prims F)
    (fragmentAttributes : FragmentAttributes F) : Nat :=
  hashCombineAll U
    [U.hashString fragmentAttributes.fontFamily,
     U.hashFloat fragmentAttributes.fontSize,
     U.hashFloat fragmentAttributes.fontSizeMultiplier,
     U.hashOptEnum fragmentAttributes.fontWeight,
     U.hashOptEnum fragmentAttributes.fontStyle,
     U.hashOptEnum fragmentAttributes.fontVariant,
     U.hashOptBool fragmentAttributes.allowFontScaling,
     U.hashOptEnum fragmentAttributes.dynamicTypeRamp,
     U.hashFloat fragmentAttributes.letterSpacing,
     U.hashFloat fragmentAttributes.lineHeight,
     U.hashOptEnum fragmentAttributes.alignment]

/-- `areAttributedStringFragmentsEquivalentLayoutWise` (TextMeasureCache.h, lines 131-142). -/
def areAttributedStringFragmentsEquivalentLayoutWise {F : Type} (U : Prims F)
    (lhs rhs : Fragment F) : Bool :=
  lhs.string == rhs.string &&
  areFragmentAttributesEquivalentLayoutWise U lhs.textAttributes rhs.textAttributes &&
  (!lhs.isAttachment ||
    lhs.parentShadowView.layoutMetrics == rhs.parentShadowView.layoutMetrics)

/-- `attributedStringFragmentHashLayoutWise` (TextMeasureCache.h, lines 144-151). -/
def attributedStringFragmentHashLayoutWise {F : Type} (U : Prims F)
    (fragment : Fragment F) : Nat :=
  hashCombineAll U
    [U.hashString fragment.string,
     U.hashSizeT (fragmentAttributesHashLayoutWise U fragment.textAttributes)]

/-- `areAttributedStringShardsEquivalentLayoutWise` (TextMeasureCache.h, lines 153-174). -/
def areAttributedStringShardsEquivalentLayoutWise {F : Type} (U : Prims F)
    (lhs rhs : Shard F) : Bool :=
  equalSizeAndAll (areAttributedStringFragmentsEquivalentLayoutWise U)
    lhs.fragments_ rhs.fragments_

/-- `attributedStringShardHashLayoutWise` (TextMeasureCache.h, lines 176-187): the seed starts at
`0` and every fragment hash is folded into it by `hash_combine(seed, value)`. -/
def attributedStringShardHashLayoutWise {F : Type} (U : Prims F) (shard : Shard F) : Nat :=
  shard.fragments_.foldl
    (fun seed fragment =>
      U.hash_combine seed (U.hashSizeT (attributedStringFragmentHashLayoutWise U fragment)))
    0

/-- `areAttributedStringsEquivalentLayoutWise` (TextMeasureCache.h, lines 189-208). -/
def areAttributedStringsEquivalentLayoutWise {F : Type} (U : Prims F)
    (lhs rhs : AttributedString F) : Bool :=
  equalSizeAndAll (areAttributedStringShardsEquivalentLayoutWise U) lhs.shards_ rhs.shards_

/-- `attributedStringHashLayoutWise` (TextMeasureCache.h, lines 210-219). -/
def attributedStringHashLayoutWise {F : Type} (U : Prims F)
    (attributedString : AttributedString F) : Nat :=
  attributedString.shards_.foldl
    (fun seed shard =>
      U.hash_combine seed (U.hashSizeT (attributedStringShardHashLayoutWise U shard)))
    0

/-- `TextMeasureCacheKey` (TextMeasureCache.h, lines 62-67). -/
structure TextMeasureCacheKey (F : Type) where
  attributedString : AttributedString F
  paragraphAttributes : ParagraphAttributes
  layoutConstraints : LayoutConstraints F
deriving DecidableEq

/-- `operator==` on `TextMeasureCacheKey` (TextMeasureCache.h, lines 221-229). -/
def TextMeasureCacheKey.beq {F : Type} (U : Prims F) (lhs rhs : TextMeasureCacheKey F) : Bool :=
  areAttributedStringsEquivalentLayoutWise U lhs.attributedString rhs.attributedString &&
  lhs.paragraphAttributes == rhs.paragraphAttributes &&
  U.eqFloat lhs.layoutConstraints.maximumSize.width rhs.layoutConstraints.maximumSize.width

/-- `std::hash<TextMeasureCacheKey>` (TextMeasureCache.h, lines 241-249). -/
def TextMeasureCacheKey.hash {F : Type} (U : Prims F) (key : TextMeasureCacheKey F) : Nat :=
  hashCombineAll U
    [U.hashSizeT (attributedStringHashLayoutWise U key.attributedString),
     U.hashParagraphAttributes key.paragraphAttributes,
     U.hashFloat key.layoutConstraints.maximumSize.width]

/-! ## Sealable -/

/-- Modelled from the spec: `Sealable.h` is not among the sources. The ways in which a call stops
instead of returning: the sealed-mutation violation that `ensureUnsealed` raises, and
`shards_.front()` on a vector without elements, which the language leaves undefined. -/
inductive Violation where
  | sealedMutation
  | frontOfEmptyVector
deriving DecidableEq

deriving instance DecidableEq for Except

/-- What a call leaves behind: the value it returns, or the violation at which it stops, paired
with the object as the call leaves it. -/
abbrev Outcome (α σ : Type) := Except Violation α × σ

/-- Modelled from the spec: `Sealable::ensureUnsealed` is not among the sources; any mutation
attempted after `seal()` fails with the sealed-mutation violation, and an unsealed object
passes. The argument is the seal flag of the object. -/
def Sealable.ensureUnsealed (sealed_ : Bool) : Except Violation Unit :=
  if sealed_ then .error .sealedMutation else .ok ()

/-- Modelled from the spec: `Sealable::seal` is not among the sources; on a `Shard`, which has no
children, it sets the seal flag, once and for all. -/
def Shard.seal {F : Type} (self : Shard F) : Shard F :=
  { self with sealed_ := true }

/-- `AttributedString::sealChildren` (AttributedString.cpp, lines 289-293): seals every shard. -/
def AttributedString.sealChildren {F : Type} (self : AttributedString F) : AttributedString F :=
  { self with shards_ := self.shards_.map Shard.seal }

/-- Modelled from the spec: `Sealable::seal` is not among the sources; on an `AttributedString`
it sets the seal flag and seals the children through `sealChildren`. -/
def AttributedString.seal {F : Type} (self : AttributedString F) : AttributedString F :=
  { self.sealChildren with sealed_ := true }

/-! ## AttributedString.cpp: construction, mutation, queries -/

/-- A default-constructed `Shard`: no fragments, unsealed. -/
def Shard.new {F : Type} : Shard F :=
  { fragments_ := [], sealed_ := false }

/-- A default-constructed `AttributedString` (AttributedString.h, line 234:
`Shards shards_{AttributedString::Shard{}}`): one shard without fragments, unsealed. -/
def AttributedString.new {F : Type} : AttributedString F :=
  { shards_ := [Shard.new], sealed_ := false }

/-- `AttributedString::FragmentHandle` (AttributedString.h, lines 138-145); the indices are
`size_t` values. -/
structure FragmentHandle where
  shardIndex : Nat
  fragmentIndex : Nat
deriving DecidableEq

/-- `Shard::getString` (AttributedString.cpp, lines 68-74). -/
def Shard.getString {F : Type} (self : Shard F) : String :=
  self.fragments_.foldl (fun string fragment => string ++ fragment.string) ""

/-- `Shard::appendFragment` (AttributedString.cpp, lines 76-84). -/
def Shard.appendFragment {F : Type} (self : Shard F) (fragment : Fragment F) :
    Outcome Unit (Shard F) :=
  match Sealable.ensureUnsealed self.sealed_ with
  | .error v => (.error v, self)
  | .ok () =>
    if fragment.string.isEmpty then (.ok (), self)
    else (.ok (), { self with fragments_ := self.fragments_ ++ [fragment] })

/-- `Shard::prependFragment` (AttributedString.cpp, lines 86-94). -/
def Shard.prependFragment {F : Type} (self : Shard F) (fragment : Fragment F) :
    Outcome Unit (Shard F) :=
  match Sealable.ensureUnsealed self.sealed_ with
  | .error v => (.error v, self)
  | .ok () =>
    if fragment.string.isEmpty then (.ok (), self)
    else (.ok (), { self with fragments_ := fragment :: self.fragments_ })

/-- `Shard::isEmpty` (AttributedString.cpp, lines 96-98). -/
def Shard.isEmpty {F : Type} (self : Shard F) : Bool :=
  self.fragments_.isEmpty

/-- `Shard::countAttachments` (AttributedString.cpp, lines 129-139). The counter is an `int`;
it is modelled without overflow, which is exact below `2 ^ 31` attachments. -/
def Shard.countAttachments {F : Type} (self : Shard F) : Int :=
  self.fragments_.foldl (fun count fragment => if fragment.isAttachment then count + 1 else count) 0

/-- `AttributedString::appendShard` (AttributedString.cpp, lines 151-159). -/
def AttributedString.appendShard {F : Type} (self : AttributedString F) (shard : Shard F) :
    Outcome Unit (AttributedString F) :=
  match Sealable.ensureUnsealed self.sealed_ with
  | .error v => (.error v, self)
  | .ok () =>
    if shard.isEmpty then (.ok (), self)
    else (.ok (), { self with shards_ := self.shards_ ++ [shard] })

/-- `AttributedString::prependShard` (AttributedString.cpp, lines 161-169). -/
def AttributedString.prependShard {F : Type} (self : AttributedString F) (shard : Shard F) :
    Outcome Unit (AttributedString F) :=
  match Sealable.ensureUnsealed self.sealed_ with
  | .error v => (.error v, self)
  | .ok () =>
    if shard.isEmpty then (.ok (), self)
    else (.ok (), { self with shards_ := shard :: self.shards_ })

/-- `AttributedString::appendFragment` (AttributedString.cpp, lines 171-181): the fragment goes to
`shards_.front()`, and the handle is `{0, root.getFragments().size() - 1}` in `size_t`
arithmetic. -/
def AttributedString.appendFragment {F : Type} (self : AttributedString F)
    (fragment : Fragment F) : Outcome FragmentHandle (AttributedString F) :=
  match Sealable.ensureUnsealed self.sealed_ with
  | .error v => (.error v, self)
  | .ok () =>
    match self.shards_ with
    | [] => (.error .frontOfEmptyVector, self)
    | root :: rest =>
      match root.appendFragment fragment with
      | (.error v, _) => (.error v, self)
      | (.ok (), root') =>
        (.ok { shardIndex := 0,
               fragmentIndex := (root'.fragments_.length + (2 ^ 64 - 1)) % 2 ^ 64 },
          { self with shards_ := root' :: rest })

/-- `AttributedString::prependFragment` (AttributedString.cpp, lines 183-190): the fragment goes
to `shards_.front()`, and the handle is `{0, 0}`. -/
def AttributedString.prependFragment {F : Type} (self : AttributedString F)
    (fragment : Fragment F) : Outcome FragmentHandle (AttributedString F) :=
  match Sealable.ensureUnsealed self.sealed_ with
  | .error v => (.error v, self)
  | .ok () =>
    match self.shards_ with
    | [] => (.error .frontOfEmptyVector, self)
    | root :: rest =>
      match root.prependFragment fragment with
      | (.error v, _) => (.error v, self)
      | (.ok (), root') =>
        (.ok { shardIndex := 0, fragmentIndex := 0 }, { self with shards_ := root' :: rest })

/-- `AttributedString::appendAttributedString` (AttributedString.cpp, lines 192-199). -/
def AttributedString.appendAttributedString {F : Type} (self : AttributedString F)
    (attributedString : AttributedString F) : Outcome Unit (AttributedString F) :=
  match Sealable.ensureUnsealed self.sealed_ with
  | .error v => (.error v, self)
  | .ok () => (.ok (), { self with shards_ := self.shards_ ++ attributedString.shards_ })

/-- `AttributedString::prependAttributedString` (AttributedString.cpp, lines 201-208). -/
def AttributedString.prependAttributedString {F : Type} (self : AttributedString F)
    (attributedString : AttributedString F) : Outcome Unit (AttributedString F) :=
  match Sealable.ensureUnsealed self.sealed_ with
  | .error v => (.error v, self)
  | .ok () => (.ok (), { self with shards_ := attributedString.shards_ ++ self.shards_ })

/-- `AttributedString::countAllAttachments` (AttributedString.cpp, lines 210-218). -/
def AttributedString.countAllAttachments {F : Type} (self : AttributedString F) : Int :=
  self.shards_.foldl (fun count shard => count + shard.countAttachments) 0

/-- `AttributedString::getAllFragments` (AttributedString.cpp, lines 228-238). -/
def AttributedString.getAllFragments {F : Type} (self : AttributedString F) :
    List (Fragment F) :=
  self.shards_.foldl
    (fun fragments shard =>
      shard.fragments_.foldl (fun fragments fragment => fragments ++ [fragment]) fragments)
    []

/-- `AttributedString::getFragment` (AttributedString.cpp, lines 240-246): `none` stands for an
index beyond the bounds, which `operator[]` leaves undefined. -/
def AttributedString.getFragment {F : Type} (self : AttributedString F)
    (handle : FragmentHandle) : Option (Fragment F) :=
  match self.shards_[handle.shardIndex]? with
  | none => none
  | some shard => shard.fragments_[handle.fragmentIndex]?

/-- `AttributedString::getJoinedString` (AttributedString.cpp, lines 248-254). -/
def AttributedString.getJoinedString {F : Type} (self : AttributedString F) : String :=
  self.shards_.foldl (fun string shard => string ++ shard.getString) ""

/-- `AttributedString::isEmpty` (AttributedString.cpp, lines 256-258). -/
def AttributedString.isEmpty {F : Type} (self : AttributedString F) : Bool :=
  self.shards_.isEmpty

/-! ## AttributedString.cpp: comparisons that leave the anchor out -/

/-- `Fragment::isContentEqual` (AttributedString.cpp, lines 49-52). -/
def Fragment.isContentEqual {F : Type} (U : Prims F) (self rhs : Fragment F) : Bool :=
  self.string == rhs.string && TextAttributes.beq U self.textAttributes rhs.textAttributes

/-- `Shard::compareTextAttributesWithoutFrame` (AttributedString.cpp, lines 100-113): the loop
returns `false` at an index where `textAttributes != rhs.textAttributes || string != rhs.string`. -/
def Shard.compareTextAttributesWithoutFrame {F : Type} (U : Prims F) (self rhs : Shard F) :
    Bool :=
  equalSizeAndAll
    (fun l r => !(!(TextAttributes.beq U l.textAttributes r.textAttributes) ||
      l.string != r.string))
    self.fragments_ rhs.fragments_

/-- `Shard::isContentEqual` (AttributedString.cpp, lines 115-127). -/
def Shard.isContentEqual {F : Type} (U : Prims F) (self rhs : Shard F) : Bool :=
  equalSizeAndAll (Fragment.isContentEqual U) self.fragments_ rhs.fragments_

/-- `AttributedString::compareTextAttributesWithoutFrame` (AttributedString.cpp, lines 260-273). -/
def AttributedString.compareTextAttributesWithoutFrame {F : Type} (U : Prims F)
    (self rhs : AttributedString F) : Bool :=
  equalSizeAndAll (Shard.compareTextAttributesWithoutFrame U) self.shards_ rhs.shards_

/-- `AttributedString::isContentEqual` (AttributedString.cpp, lines 275-287). -/
def AttributedString.isContentEqual {F : Type} (U : Prims F) (self rhs : AttributedString F) :
    Bool :=
  equalSizeAndAll (Shard.isContentEqual U) self.shards_ rhs.shards_

/-! ## The structural hashes -/

/-- `std::hash<FragmentAttributes>` (FragmentAttributes.h, lines 106-139): 27 fields, in the
order of the source; `dynamicTypeRamp` is not among them. -/
def FragmentAttributes.hash {F : Type} (U : Prims F) (textAttributes : FragmentAttributes F) :
    Nat :=
  hashCombineAll U
    [U.hashColor textAttributes.foregroundColor,
     U.hashColor textAttributes.backgroundColor,
     U.hashFloat textAttributes.opacity,
     U.hashString textAttributes.fontFamily,
     U.hashFloat textAttributes.fontSize,
     U.hashFloat textAttributes.fontSizeMultiplier,
     U.hashOptEnum textAttributes.fontWeight,
     U.hashOptEnum textAttributes.fontStyle,
     U.hashOptEnum textAttributes.fontVariant,
     U.hashOptBool textAttributes.allowFontScaling,
     U.hashFloat textAttributes.letterSpacing,
     U.hashOptEnum textAttributes.textTransform,
     U.hashFloat textAttributes.lineHeight,
     U.hashOptEnum textAttributes.alignment,
     U.hashOptEnum textAttributes.baseWritingDirection,
     U.hashOptEnum textAttributes.lineBreakStrategy,
     U.hashColor textAttributes.textDecorationColor,
     U.hashOptEnum textAttributes.textDecorationLineType,
     U.hashOptEnum textAttributes.textDecorationStyle,
     U.hashOptSize textAttributes.textShadowOffset,
     U.hashFloat textAttributes.textShadowRadius,
     U.hashColor textAttributes.textShadowColor,
     U.hashOptBool textAttributes.isHighlighted,
     U.hashOptBool textAttributes.isPressable,
     U.hashOptEnum textAttributes.layoutDirection,
     U.hashOptEnum textAttributes.accessibilityRole,
     U.hashOptEnum textAttributes.role]

/-- `std::hash<AttributedString::Fragment>` (AttributedString.h, lines 240-250). -/
def Fragment.hash {F : Type} (U : Prims F) (fragment : Fragment F) : Nat :=
  hashCombineAll U
    [U.hashString fragment.string,
     FragmentAttributes.hash U fragment.textAttributes,
     U.hashShadowView fragment.parentShadowView,
     U.hashLayoutMetrics fragment.parentShadowView.layoutMetrics]

/-- `std::hash<AttributedString::Shard>` (AttributedString.h, lines 252-263). -/
def Shard.hash {F : Type} (U : Prims F) (shard : Shard F) : Nat :=
  shard.fragments_.foldl (fun seed fragment => U.hash_combine seed (Fragment.hash U fragment)) 0

/-- `std::hash<AttributedString>` (AttributedString.h, lines 265-277). -/
def AttributedString.hash {F : Type} (U : Prims F) (attributedString : AttributedString F) :
    Nat :=
  attributedString.shards_.foldl (fun seed shard => U.hash_combine seed (Shard.hash U shard)) 0

/-! ## The measure cache -/

/-- `kSimpleThreadSafeCacheSizeCap` (TextMeasureCache.h, line 74). -/
def kSimpleThreadSafeCacheSizeCap : Nat := 1024

/-- Modelled from the spec: `SimpleThreadSafeCache.h` is not among the sources. An entry of the
cache: the fingerprint of its key, which is the `std::hash` value, the key, and the stored
measurement. -/
structure CacheEntry (F M : Type) where
  fingerprint : Nat
  key : TextMeasureCacheKey F
  measurement : M

/-- Modelled from the spec: `SimpleThreadSafeCache.h` is not among the sources. The cache as a
sequence of entries, the most recent first, of at most `kSimpleThreadSafeCacheSizeCap`
entries. -/
abbrev TextMeasureCache (F M : Type) := List (CacheEntry F M)

/-- The outcome of `get`: the measurement returned, the cache after the call, and the number of
calls of the external measure function. -/
structure CacheGet (F M : Type) where
  value : M
  cache : TextMeasureCache F M
  measureCalls : Nat

/-- Modelled from the spec: the lookup of `SimpleThreadSafeCache`, a hash table keyed by
`std::hash<TextMeasureCacheKey>` and `operator==`: an entry answers `key` when its fingerprint
is the hash of `key` and `key == entry.key` holds (collisions are resolved by the equivalence
check); the first such entry is taken. -/
def TextMeasureCache.lookup {F M : Type} (U : Prims F) (cache : TextMeasureCache F M)
    (key : TextMeasureCacheKey F) : Option M :=
  (cache.find? fun entry =>
    entry.fingerprint == TextMeasureCacheKey.hash U key &&
      TextMeasureCacheKey.beq U key entry.key).map CacheEntry.measurement

/-- Modelled from the spec: `get` of `SimpleThreadSafeCache`. On a hit the stored measurement is
returned and `measure` is not called; on a miss `measure` is called once, its result is stored
under the key in front of the other entries, the oldest entries beyond the cap are dropped, and
the result is returned. -/
def TextMeasureCache.get {F M : Type} (U : Prims F) (measure : TextMeasureCacheKey F → M)
    (cache : TextMeasureCache F M) (key : TextMeasureCacheKey F) : CacheGet F M :=
  match TextMeasureCache.lookup U cache key with
  | some stored => { value := stored, cache := cache, measureCalls := 0 }
  | none =>
    { value := measure key,
      cache :=
        ({ fingerprint := TextMeasureCacheKey.hash U key, key := key,
           measurement := measure key } :: cache).take kSimpleThreadSafeCacheSizeCap,
      measureCalls := 1 }

/-! ## A reference instance of the helpers

`RefFloat` covers `NaN` and the finite values `k / 1024`, which binary floating point represents
and subtracts exactly for the small `k` used below. `refFloatEquality` follows the upstream header
`react/utils/FloatComparison.h`, which is outside the sources at hand:
`(isnan(a) && isnan(b)) || (!isnan(a) && !isnan(b) && fabs(a - b) < 0.005)`. On multiples of
`1 / 1024` the test `fabs(a - b) < 0.005` is `|ka - kb| * 1000 < 5 * 1024`. -/

/-- The carrier of the reference instance: `none` is `NaN`, `some k` is the value `k / 1024`. -/
abbrev RefFloat := Option Int

/-- The tolerance comparison `floatEquality(a, b)` with the default epsilon `0.005`. -/
def refFloatEquality : RefFloat → RefFloat → Bool
  | none, none => true
  | some a, some b => decide ((a - b).natAbs * 1000 < 5 * 1024)
  | _, _ => false

/-- The built-in `==` of `Float`: `NaN` differs from everything, itself included. -/
def refEqFloat : RefFloat → RefFloat → Bool
  | some a, some b => a == b
  | _, _ => false

/-- The usual `hash_combine` step on 64-bit `size_t`:
`seed ^= h + 0x9e3779b9 + (seed << 6) + (seed >> 2)`. -/
def refHashCombine (seed h : Nat) : Nat :=
  (seed ^^^ ((h + 0x9e3779b9 + (seed <<< 6) + (seed >>> 2)) % 2 ^ 64)) % 2 ^ 64

/-- A stand-in for `std::hash<Float>`: an injective code of the value, `NaN` included. -/
def refHashFloat : RefFloat → Nat
  | none => 0x7fc00000
  | some (Int.ofNat n) => 2 * n
  | some (Int.negSucc n) => 2 * n + 1

/-- A stand-in for `std::hash<std::string>`: a polynomial hash of the code points. -/
def refHashString (s : String) : Nat :=
  s.data.foldl (fun h c => (h * 1099511628211 + c.toNat) % 2 ^ 64) 14695981039346656037

/-- A stand-in for `std::hash<std::optional<T>>` on enumerations. -/
def refHashOptEnum : Option Nat → Nat
  | none => 0
  | some n => n + 1

/-- A stand-in for `std::hash<std::optional<bool>>`. -/
def refHashOptBool : Option Bool → Nat
  | none => 0
  | some false => 1
  | some true => 2

/-- A stand-in for `std::hash<std::optional<Size>>`. -/
def refHashOptSize : Option (Size RefFloat) → Nat
  | none => 0
  | some s => refHashCombine (refHashCombine 0 (refHashFloat s.width)) (refHashFloat s.height)

/-- A stand-in for `std::hash<ShadowView>`, over every member of the view. -/
def refHashShadowView (v : ShadowView) : Nat :=
  refHashCombine (refHashCombine (refHashCombine 0 v.tag.natAbs) v.layoutMetrics) v.others

/-- The reference instance of the helpers. -/
def refPrims : Prims RefFloat where
  floatEquality := refFloatEquality
  eqFloat := refEqFloat
  hash_combine := refHashCombine
  hashSizeT := id
  hashString := refHashString
  hashFloat := refHashFloat
  hashOptEnum := refHashOptEnum
  hashOptBool := refHashOptBool
  hashColor := id
  hashOptSize := refHashOptSize
  hashShadowView := refHashShadowView
  hashLayoutMetrics := id
  hashParagraphAttributes := id

/-- The default attributes of FragmentAttributes.h over the reference carrier, with the given
`fontSize` (in units of `1 / 1024`) and `foregroundColor`: `fontSizeMultiplier` is `1.0`, the
other `Float`s are `NaN`, every optional is empty. -/
def refAttributes (fontSize : Int) (foregroundColor : SharedColor) : FragmentAttributes RefFloat where
  foregroundColor := foregroundColor
  backgroundColor := 0
  opacity := none
  fontFamily := ""
  fontSize := some fontSize
  fontSizeMultiplier := some 1024
  fontWeight := none
  fontStyle := none
  fontVariant := none
  allowFontScaling := none
  dynamicTypeRamp := none
  letterSpacing := none
  textTransform := none
  lineHeight := none
  alignment := none
  baseWritingDirection := none
  lineBreakStrategy := none
  textDecorationColor := 0
  textDecorationLineType := none
  textDecorationStyle := none
  textShadowOffset := none
  textShadowRadius := none
  textShadowColor := 0
  isHighlighted := none
  isPressable := none
  layoutDirection := none
  accessibilityRole := none
  role := none

/-- A fragment over the reference carrier with the given text, `fontSize` (in units of
`1 / 1024`), `foregroundColor` and anchor layout metrics. -/
def refFragment (text : String) (fontSize : Int) (foregroundColor : SharedColor)
    (layoutMetrics : LayoutMetrics) : Fragment RefFloat where
  string := text
  textAttributes := refAttributes fontSize foregroundColor
  parentShadowView := { tag := 1, layoutMetrics := layoutMetrics, others := 0 }

/-- The unsealed attributed string with one shard that holds the given fragments. -/
def refString (fragments : List (Fragment RefFloat)) : AttributedString RefFloat where
  shards_ := [{ fragments_ := fragments, sealed_ := false }]
  sealed_ := false

/-- A cache key over the reference carrier: paragraph attributes `0`, the given maximum width and
height (in units of `1 / 1024`), minimum size zero. -/
def refKey (s : AttributedString RefFloat) (width height : Int) : TextMeasureCacheKey RefFloat where
  attributedString := s
  paragraphAttributes := 0
  layoutConstraints :=
    { minimumSize := { width := some 0, height := some 0 },
      maximumSize := { width := some width, height := some height },
      layoutDirection := 0 }

/-! ## Predicates used to state the properties -/

/-- Two attribute sets have the same value in each of the eleven layout-relevant fields. -/
def sameLayoutRelevantFields {F : Type} (x y : FragmentAttributes F) : Prop :=
  x.fontFamily = y.fontFamily ∧ x.fontWeight = y.fontWeight ∧ x.fontStyle = y.fontStyle ∧
  x.fontVariant = y.fontVariant ∧ x.allowFontScaling = y.allowFontScaling ∧
  x.dynamicTypeRamp = y.dynamicTypeRamp ∧ x.alignment = y.alignment ∧
  x.fontSize = y.fontSize ∧ x.fontSizeMultiplier = y.fontSizeMultiplier ∧
  x.letterSpacing = y.letterSpacing ∧ x.lineHeight = y.lineHeight

instance {F : Type} [DecidableEq F] (x y : FragmentAttributes F) :
    Decidable (sameLayoutRelevantFields x y) := by
  unfold sameLayoutRelevantFields
  infer_instance

/-- Two fragments have equal text, equal `parentShadowView`, and attributes with the same
layout-relevant fields; every other attribute is free. -/
def sameUpToDecoration {F : Type} (f g : Fragment F) : Prop :=
  f.string = g.string ∧ f.parentShadowView = g.parentShadowView ∧
  sameLayoutRelevantFields f.textAttributes g.textAttributes

instance {F : Type} [DecidableEq F] (f g : Fragment F) : Decidable (sameUpToDecoration f g) := by
  unfold sameUpToDecoration
  infer_instance

/-- The state in which a call leaves the object, whether it returned or stopped. -/
abbrev Outcome.after {α σ : Type} (r : Outcome α σ) : σ := r.2

/-- Calls `appendFragment` once for each fragment of the list, in order, and gives the state
after the last call. -/
def appendFragments {F : Type} (s : AttributedString F) (fragments : List (Fragment F)) :
    AttributedString F :=
  fragments.foldl (fun s fragment => (s.appendFragment fragment).after) s

/-- No fragment of any shard has an empty string. -/
def noEmptyFragment {F : Type} (s : AttributedString F) : Bool :=
  s.shards_.all fun shard => shard.fragments_.all fun fragment => !fragment.string.isEmpty

/-- The shards built from a default-constructed one by `Shard::appendFragment` and
`Shard::prependFragment`. -/
inductive Shard.Built {F : Type} : Shard F → Prop where
  | new : Shard.Built Shard.new
  | appendFragment (x : Shard F) (f : Fragment F) :
      Shard.Built x → Shard.Built (x.appendFragment f).after
  | prependFragment (x : Shard F) (f : Fragment F) :
      Shard.Built x → Shard.Built (x.prependFragment f).after

/-- The attributed strings reachable from a default-constructed one by the six mutation
operations, with shard arguments that are built shards and string arguments that are reachable
strings. -/
inductive AttributedString.Built {F : Type} : AttributedString F → Prop where
  | new : AttributedString.Built AttributedString.new
  | appendFragment (s : AttributedString F) (f : Fragment F) :
      AttributedString.Built s → AttributedString.Built (s.appendFragment f).after
  | prependFragment (s : AttributedString F) (f : Fragment F) :
      AttributedString.Built s → AttributedString.Built (s.prependFragment f).after
  | appendShard (s : AttributedString F) (x : Shard F) :
      AttributedString.Built s → Shard.Built x → AttributedString.Built (s.appendShard x).after
  | prependShard (s : AttributedString F) (x : Shard F) :
      AttributedString.Built s → Shard.Built x → AttributedString.Built (s.prependShard x).after
  | appendAttributedString (s o : AttributedString F) :
      AttributedString.Built s → AttributedString.Built o →
        AttributedString.Built (s.appendAttributedString o).after
  | prependAttributedString (s o : AttributedString F) :
      AttributedString.Built s → AttributedString.Built o →
        AttributedString.Built (s.prependAttributedString o).after

/-- A stand-in for the external measure function on the reference carrier: the sum of the
`fontSize` values of all fragments, in units of `1 / 1024`. -/
def refMeasure (key : TextMeasureCacheKey RefFloat) : Int :=
  (key.attributedString.getAllFragments.map fun fragment =>
    fragment.textAttributes.fontSize.getD 0).foldl (fun a b => a + b) 0

/-- Replaces the `parentShadowView` of every fragment of the string by its image under `g`. -/
def mapParentShadowView {F : Type} (g : ShadowView → ShadowView) (s : AttributedString F) :
    AttributedString F :=
  { s with
    shards_ := s.shards_.map fun shard =>
      { shard with
        fragments_ := shard.fragments_.map fun fragment =>
          { fragment with parentShadowView := g fragment.parentShadowView } } }

/-- The four `Float` attributes that `areFragmentAttributesEquivalentLayoutWise` compares with
`floatEquality`. -/
def FragmentAttributes.layoutFloats {F : Type} (t : FragmentAttributes F) : List F :=
  [t.fontSize, t.fontSizeMultiplier, t.letterSpacing, t.lineHeight]

/-- The six `Float` attributes that `TextAttributes::operator==` compares with
`floatEquality`. -/
def FragmentAttributes.comparedFloats {F : Type} (t : FragmentAttributes F) : List F :=
  [t.opacity, t.fontSize, t.fontSizeMultiplier, t.letterSpacing, t.lineHeight,
    t.textShadowRadius]

/-- The `Float` components of `textShadowOffset`, which `TextAttributes::operator==` compares
with `==`: none when the optional is empty. -/
def FragmentAttributes.shadowOffsetFloats {F : Type} (t : FragmentAttributes F) : List F :=
  match t.textShadowOffset with
  | none => []
  | some size => [size.width, size.height]

/-- The values of the four layout-relevant `Float` attributes of every fragment of the string. -/
def AttributedString.layoutFloats {F : Type} (s : AttributedString F) : List F :=
  s.shards_.flatMap fun shard =>
    shard.fragments_.flatMap fun fragment =>
      FragmentAttributes.layoutFloats fragment.textAttributes

/-- The values of the six `Float` attributes of every fragment of the string that
`operator==` compares with `floatEquality`. -/
def AttributedString.comparedFloats {F : Type} (s : AttributedString F) : List F :=
  s.shards_.flatMap fun shard =>
    shard.fragments_.flatMap fun fragment =>
      FragmentAttributes.comparedFloats fragment.textAttributes

/-- The `Float` components of the `textShadowOffset` of every fragment of the string. -/
def AttributedString.shadowOffsetFloats {F : Type} (s : AttributedString F) : List F :=
  s.shards_.flatMap fun shard =>
    shard.fragments_.flatMap fun fragment =>
      FragmentAttributes.shadowOffsetFloats fragment.textAttributes

/-! ## The comparison loop -/

theorem equalSizeAndAll_nil {α : Type} (p : α → α → Bool) :
    equalSizeAndAll p [] [] = true := by
  simp [equalSizeAndAll]

theorem equalSizeAndAll_nil_cons {α : Type} (p : α → α → Bool) (b : α) (r : List α) :
    equalSizeAndAll p [] (b :: r) = false := by
  simp [equalSizeAndAll]

theorem equalSizeAndAll_cons_nil {α : Type} (p : α → α → Bool) (a : α) (l : List α) :
    equalSizeAndAll p (a :: l) [] = false := by
  simp [equalSizeAndAll]

theorem equalSizeAndAll_cons {α : Type} (p : α → α → Bool) (a b : α) (l r : List α) :
    equalSizeAndAll p (a :: l) (b :: r) = (p a b && equalSizeAndAll p l r) := by
  by_cases h : l.length = r.length
  · simp [equalSizeAndAll, h]
  · simp [equalSizeAndAll, h]

/-- The loop returns `true` exactly when the two vectors have the same size and `p` holds at
every index. -/
theorem equalSizeAndAll_iff {α : Type} (p : α → α → Bool) (l r : List α) :
    equalSizeAndAll p l r = true ↔ List.Forall₂ (fun x y => p x y = true) l r := by
  induction l generalizing r with
  | nil =>
    cases r with
    | nil => simp [equalSizeAndAll_nil]
    | cons b r => simp [equalSizeAndAll_nil_cons]
  | cons a l ih =>
    cases r with
    | nil => simp [equalSizeAndAll_cons_nil]
    | cons b r => simp [equalSizeAndAll_cons, ih]

theorem equalSizeAndAll_length {α : Type} (p : α → α → Bool) (l r : List α)
    (h : equalSizeAndAll p l r = true) : l.length = r.length :=
  ((equalSizeAndAll_iff p l r).1 h).length_eq

/-- What the loop says about the elements at one index. -/
theorem equalSizeAndAll_getElem? {α : Type} (p : α → α → Bool) (l r : List α)
    (h : equalSizeAndAll p l r = true) (i : Nat) (x y : α)
    (hx : l[i]? = some x) (hy : r[i]? = some y) : p x y = true := by
  induction l generalizing r i with
  | nil => simp at hx
  | cons a l ih =>
    cases r with
    | nil => simp at hy
    | cons b r =>
      rw [equalSizeAndAll_cons, Bool.and_eq_true] at h
      cases i with
      | zero =>
        simp at hx hy
        subst hx hy
        exact h.1
      | succ i =>
        simp at hx hy
        exact ih r h.2 i hx hy

theorem equalSizeAndAll_mono {α : Type} (p q : α → α → Bool)
    (hpq : ∀ x y, p x y = true → q x y = true) (l r : List α)
    (h : equalSizeAndAll p l r = true) : equalSizeAndAll q l r = true :=
  (equalSizeAndAll_iff q l r).2 (((equalSizeAndAll_iff p l r).1 h).imp (fun {x y} => hpq x y))

theorem equalSizeAndAll_refl {α : Type} (p : α → α → Bool) (hp : ∀ x, p x x = true)
    (l : List α) : equalSizeAndAll p l l = true := by
  induction l with
  | nil => exact equalSizeAndAll_nil p
  | cons a l ih => rw [equalSizeAndAll_cons, hp, ih]; rfl

theorem equalSizeAndAll_symm {α : Type} (p : α → α → Bool)
    (hp : ∀ x y, p x y = true → p y x = true) (l r : List α)
    (h : equalSizeAndAll p l r = true) : equalSizeAndAll p r l = true := by
  induction l generalizing r with
  | nil =>
    cases r with
    | nil => exact h
    | cons b r => simp [equalSizeAndAll_nil_cons] at h
  | cons a l ih =>
    cases r with
    | nil => simp [equalSizeAndAll_cons_nil] at h
    | cons b r =>
      rw [equalSizeAndAll_cons, Bool.and_eq_true] at h
      rw [equalSizeAndAll_cons, Bool.and_eq_true]
      exact ⟨hp a b h.1, ih r h.2⟩

theorem equalSizeAndAll_trans {α : Type} (p : α → α → Bool)
    (hp : ∀ x y z, p x y = true → p y z = true → p x z = true) (l m r : List α)
    (h₁ : equalSizeAndAll p l m = true) (h₂ : equalSizeAndAll p m r = true) :
    equalSizeAndAll p l r = true := by
  induction l generalizing m r with
  | nil =>
    cases m with
    | nil => exact h₂
    | cons b m => simp [equalSizeAndAll_nil_cons] at h₁
  | cons a l ih =>
    cases m with
    | nil => simp [equalSizeAndAll_cons_nil] at h₁
    | cons b m =>
      cases r with
      | nil => simp [equalSizeAndAll_cons_nil] at h₂
      | cons c r =>
        rw [equalSizeAndAll_cons, Bool.and_eq_true] at h₁ h₂
        rw [equalSizeAndAll_cons, Bool.and_eq_true]
        exact ⟨hp a b c h₁.1 h₂.1, ih m r h₁.2 h₂.2⟩

/-- Folding hashes into a seed gives the same seed for two vectors that the loop accepts, when
accepted elements have equal hashes. -/
theorem foldl_hash_congr {α : Type} (p : α → α → Bool) (combine : Nat → Nat → Nat)
    (h : α → Nat) (hp : ∀ x y, p x y = true → h x = h y) (l r : List α)
    (hlr : equalSizeAndAll p l r = true) (seed : Nat) :
    l.foldl (fun s x => combine s (h x)) seed = r.foldl (fun s x => combine s (h x)) seed := by
  induction l generalizing r seed with
  | nil =>
    cases r with
    | nil => rfl
    | cons b r => simp [equalSizeAndAll_nil_cons] at hlr
  | cons a l ih =>
    cases r with
    | nil => simp [equalSizeAndAll_cons_nil] at hlr
    | cons b r =>
      rw [equalSizeAndAll_cons, Bool.and_eq_true] at hlr
      simp only [List.foldl_cons]
      rw [hp a b hlr.1]
      exact ih r hlr.2 _

/-! ## Hash and equivalence, level by level -/

section Lemmas

variable {F : Type} (U : Prims F)

/-- The attribute predicate spelled out: seven fields are equal, four `Float` fields are related
by `floatEquality`. -/
theorem areFragmentAttributesEquivalentLayoutWise_iff (lhs rhs : FragmentAttributes F) :
    areFragmentAttributesEquivalentLayoutWise U lhs rhs = true ↔
      lhs.fontFamily = rhs.fontFamily ∧ lhs.fontWeight = rhs.fontWeight ∧
      lhs.fontStyle = rhs.fontStyle ∧ lhs.fontVariant = rhs.fontVariant ∧
      lhs.allowFontScaling = rhs.allowFontScaling ∧
      lhs.dynamicTypeRamp = rhs.dynamicTypeRamp ∧ lhs.alignment = rhs.alignment ∧
      U.floatEquality lhs.fontSize rhs.fontSize = true ∧
      U.floatEquality lhs.fontSizeMultiplier rhs.fontSizeMultiplier = true ∧
      U.floatEquality lhs.letterSpacing rhs.letterSpacing = true ∧
      U.floatEquality lhs.lineHeight rhs.lineHeight = true := by
  simp only [areFragmentAttributesEquivalentLayoutWise, Bool.and_eq_true, beq_iff_eq]
  tauto

/-- The fragment predicate spelled out. -/
theorem areAttributedStringFragmentsEquivalentLayoutWise_iff (lhs rhs : Fragment F) :
    areAttributedStringFragmentsEquivalentLayoutWise U lhs rhs = true ↔
      lhs.string = rhs.string ∧
      areFragmentAttributesEquivalentLayoutWise U lhs.textAttributes rhs.textAttributes = true ∧
      (lhs.isAttachment = true →
        lhs.parentShadowView.layoutMetrics = rhs.parentShadowView.layoutMetrics) := by
  simp only [areAttributedStringFragmentsEquivalentLayoutWise, Bool.and_eq_true, beq_iff_eq,
    Bool.or_eq_true, Bool.not_eq_true']
  constructor
  · rintro ⟨⟨h₁, h₂⟩, h₃⟩
    refine ⟨h₁, h₂, fun ha => ?_⟩
    rcases h₃ with h₃ | h₃
    · rw [ha] at h₃; cases h₃
    · exact h₃
  · rintro ⟨h₁, h₂, h₃⟩
    refine ⟨⟨h₁, h₂⟩, ?_⟩
    cases ha : lhs.isAttachment
    · exact Or.inl rfl
    · exact Or.inr (h₃ ha)

/-- Attribute sets that the predicate accepts have the same layout-wise hash, provided
`floatEquality`-related values have the same `std::hash`. -/
theorem fragmentAttributesHashLayoutWise_congr
    (hF : ∀ x y, U.floatEquality x y = true → U.hashFloat x = U.hashFloat y)
    (lhs rhs : FragmentAttributes F)
    (h : areFragmentAttributesEquivalentLayoutWise U lhs rhs = true) :
    fragmentAttributesHashLayoutWise U lhs = fragmentAttributesHashLayoutWise U rhs := by
  rw [areFragmentAttributesEquivalentLayoutWise_iff] at h
  obtain ⟨h₁, h₂, h₃, h₄, h₅, h₆, h₇, h₈, h₉, h₁₀, h₁₁⟩ := h
  unfold fragmentAttributesHashLayoutWise
  rw [h₁, h₂, h₃, h₄, h₅, h₆, h₇, hF _ _ h₈, hF _ _ h₉, hF _ _ h₁₀, hF _ _ h₁₁]

theorem attributedStringFragmentHashLayoutWise_congr
    (hF : ∀ x y, U.floatEquality x y = true → U.hashFloat x = U.hashFloat y)
    (lhs rhs : Fragment F)
    (h : areAttributedStringFragmentsEquivalentLayoutWise U lhs rhs = true) :
    attributedStringFragmentHashLayoutWise U lhs =
      attributedStringFragmentHashLayoutWise U rhs := by
  rw [areAttributedStringFragmentsEquivalentLayoutWise_iff] at h
  unfold attributedStringFragmentHashLayoutWise
  rw [h.1, fragmentAttributesHashLayoutWise_congr U hF _ _ h.2.1]

theorem attributedStringShardHashLayoutWise_congr
    (hF : ∀ x y, U.floatEquality x y = true → U.hashFloat x = U.hashFloat y)
    (lhs rhs : Shard F)
    (h : areAttributedStringShardsEquivalentLayoutWise U lhs rhs = true) :
    attributedStringShardHashLayoutWise U lhs = attributedStringShardHashLayoutWise U rhs :=
  foldl_hash_congr (areAttributedStringFragmentsEquivalentLayoutWise U) U.hash_combine
    (fun f => U.hashSizeT (attributedStringFragmentHashLayoutWise U f))
    (fun x y hxy => congrArg U.hashSizeT (attributedStringFragmentHashLayoutWise_congr U hF x y hxy))
    lhs.fragments_ rhs.fragments_ h 0

/-- Hash and equivalence agree on attributed strings as far as `floatEquality` and
`std::hash<Float>` agree: when `floatEquality`-related values hash alike, layout-wise equivalent
strings hash alike. -/
theorem attributedStringHashLayoutWise_congr
    (hF : ∀ x y, U.floatEquality x y = true → U.hashFloat x = U.hashFloat y)
    (lhs rhs : AttributedString F)
    (h : areAttributedStringsEquivalentLayoutWise U lhs rhs = true) :
    attributedStringHashLayoutWise U lhs = attributedStringHashLayoutWise U rhs :=
  foldl_hash_congr (areAttributedStringShardsEquivalentLayoutWise U) U.hash_combine
    (fun s => U.hashSizeT (attributedStringShardHashLayoutWise U s))
    (fun x y hxy => congrArg U.hashSizeT (attributedStringShardHashLayoutWise_congr U hF x y hxy))
    lhs.shards_ rhs.shards_ h 0

/-- Equal keys hash alike as far as the two comparisons of `Float` agree with `std::hash<Float>`. -/
theorem cacheKey_hash_congr
    (hF : ∀ x y, U.floatEquality x y = true → U.hashFloat x = U.hashFloat y)
    (hE : ∀ x y, U.eqFloat x y = true → U.hashFloat x = U.hashFloat y)
    (lhs rhs : TextMeasureCacheKey F) (h : TextMeasureCacheKey.beq U lhs rhs = true) :
    TextMeasureCacheKey.hash U lhs = TextMeasureCacheKey.hash U rhs := by
  simp only [TextMeasureCacheKey.beq, Bool.and_eq_true, beq_iff_eq] at h
  unfold TextMeasureCacheKey.hash
  rw [attributedStringHashLayoutWise_congr U hF _ _ h.1.1, h.1.2, hE _ _ h.2]

/-- `TextAttributes::operator==` implies the layout-wise attribute predicate: the latter tests a
subset of the fields, each in the same way. -/
theorem areFragmentAttributesEquivalentLayoutWise_of_beq (lhs rhs : TextAttributes F)
    (h : TextAttributes.beq U lhs rhs = true) :
    areFragmentAttributesEquivalentLayoutWise U lhs rhs = true := by
  rw [areFragmentAttributesEquivalentLayoutWise_iff]
  simp only [TextAttributes.beq, Bool.and_eq_true, beq_iff_eq] at h
  tauto

theorem areAttributedStringFragmentsEquivalentLayoutWise_of_beq (lhs rhs : Fragment F)
    (h : Fragment.beq U lhs rhs = true) :
    areAttributedStringFragmentsEquivalentLayoutWise U lhs rhs = true := by
  rw [areAttributedStringFragmentsEquivalentLayoutWise_iff]
  simp only [Fragment.beq, Bool.and_eq_true, beq_iff_eq] at h
  exact ⟨h.1.1.1, areFragmentAttributesEquivalentLayoutWise_of_beq U _ _ h.1.1.2, fun _ => h.2⟩

theorem areAttributedStringShardsEquivalentLayoutWise_of_beq (lhs rhs : Shard F)
    (h : Shard.beq U lhs rhs = true) :
    areAttributedStringShardsEquivalentLayoutWise U lhs rhs = true :=
  equalSizeAndAll_mono _ _ (areAttributedStringFragmentsEquivalentLayoutWise_of_beq U) _ _ h

theorem areAttributedStringsEquivalentLayoutWise_of_beq (lhs rhs : AttributedString F)
    (h : AttributedString.beq U lhs rhs = true) :
    areAttributedStringsEquivalentLayoutWise U lhs rhs = true :=
  equalSizeAndAll_mono _ _ (areAttributedStringShardsEquivalentLayoutWise_of_beq U) _ _ h

end Lemmas

/-! ## Hash consistency of the layout-wise oracle -/

/-- C1, evaluated at a failing input. The strings `"a"` with `fontSize` 14.0 and
14.0009765625 are layout-wise equivalent, since `floatEquality` accepts values closer than
0.005, and `attributedStringHashLayoutWise` returns different values for them, since it hashes
the `fontSize` values themselves. -/
theorem layoutWise_equivalent_strings_hash_differently :
    areAttributedStringsEquivalentLayoutWise refPrims
        (refString [refFragment "a" 14336 0 0]) (refString [refFragment "a" 14337 0 0]) = true ∧
      attributedStringHashLayoutWise refPrims (refString [refFragment "a" 14336 0 0]) ≠
        attributedStringHashLayoutWise refPrims (refString [refFragment "a" 14337 0 0]) := by
  decide

/-- C2, evaluated at a failing input. Two cache keys with the same paragraph attributes and
maximum width 100, whose strings `"a"` have `fontSize` 16.0 and 16.001953125, are equal under
`operator==` and have different `std::hash` values. -/
theorem equal_cache_keys_hash_differently :
    TextMeasureCacheKey.beq refPrims
        (refKey (refString [refFragment "a" 16384 0 0]) 102400 0)
        (refKey (refString [refFragment "a" 16386 0 0]) 102400 0) = true ∧
      TextMeasureCacheKey.hash refPrims
          (refKey (refString [refFragment "a" 16384 0 0]) 102400 0) ≠
        TextMeasureCacheKey.hash refPrims
          (refKey (refString [refFragment "a" 16386 0 0]) 102400 0) := by
  decide

/-! ## Full equality against layout-wise equivalence -/

/-- C3. Full equality is strictly finer than layout-wise equivalence: whatever the helpers are,
`a == b` implies `areAttributedStringsEquivalentLayoutWise(a, b)`; and two strings that differ
only in the `foregroundColor` of their fragment (0 and 255) are equivalent and not equal. -/
theorem fullEquality_strictly_finer_than_layoutWise :
    (∀ (F : Type) (U : Prims F) (a b : AttributedString F),
      AttributedString.beq U a b = true →
        areAttributedStringsEquivalentLayoutWise U a b = true) ∧
    (areAttributedStringsEquivalentLayoutWise refPrims
        (refString [refFragment "a" 14336 0 0]) (refString [refFragment "a" 14336 255 0]) = true ∧
      AttributedString.beq refPrims
        (refString [refFragment "a" 14336 0 0]) (refString [refFragment "a" 14336 255 0])
          = false) :=
  ⟨fun _ U a b h => areAttributedStringsEquivalentLayoutWise_of_beq U a b h, by decide⟩

/-- The implication of C3 at two strings with a text fragment and an attachment, whose attachment
`fontSize` differ by less than the tolerance: they are equal, hence equivalent. -/
theorem fullEquality_strictly_finer_than_layoutWise_witness :
    AttributedString.beq refPrims
        (refString [refFragment "ab" 14336 7 3, refFragment "\uFFFC" 14336 0 5])
        (refString [refFragment "ab" 14336 7 3, refFragment "\uFFFC" 14337 0 5]) = true ∧
      areAttributedStringsEquivalentLayoutWise refPrims
        (refString [refFragment "ab" 14336 7 3, refFragment "\uFFFC" 14336 0 5])
        (refString [refFragment "ab" 14336 7 3, refFragment "\uFFFC" 14337 0 5]) = true :=
  ⟨by decide, fullEquality_strictly_finer_than_layoutWise.1 RefFloat refPrims _ _ (by decide)⟩

/-! ## Decorative attributes -/

section Decoration

variable {F : Type} (U : Prims F)

theorem areFragmentAttributesEquivalentLayoutWise_of_same
    (hrefl : ∀ x, U.floatEquality x x = true) (x y : FragmentAttributes F)
    (h : sameLayoutRelevantFields x y) :
    areFragmentAttributesEquivalentLayoutWise U x y = true := by
  rw [areFragmentAttributesEquivalentLayoutWise_iff]
  obtain ⟨h₁, h₂, h₃, h₄, h₅, h₆, h₇, h₈, h₉, h₁₀, h₁₁⟩ := h
  refine ⟨h₁, h₂, h₃, h₄, h₅, h₆, h₇, ?_, ?_, ?_, ?_⟩
  · rw [h₈]; exact hrefl _
  · rw [h₉]; exact hrefl _
  · rw [h₁₀]; exact hrefl _
  · rw [h₁₁]; exact hrefl _

theorem areAttributedStringFragmentsEquivalentLayoutWise_of_same
    (hrefl : ∀ x, U.floatEquality x x = true) (f g : Fragment F)
    (h : sameUpToDecoration f g) :
    areAttributedStringFragmentsEquivalentLayoutWise U f g = true := by
  rw [areAttributedStringFragmentsEquivalentLayoutWise_iff]
  exact ⟨h.1, areFragmentAttributesEquivalentLayoutWise_of_same U hrefl _ _ h.2.2,
    fun _ => congrArg ShadowView.layoutMetrics h.2.1⟩

/-- C7. The layout-wise fragment hash depends only on the text and the eleven layout-relevant
attributes: fragments that agree on them have the same hash, whatever their other attributes
and their `parentShadowView` are, attachments included. -/
theorem fragmentHashLayoutWise_depends_only_on_layout_fields (f g : Fragment F)
    (hs : f.string = g.string)
    (ha : sameLayoutRelevantFields f.textAttributes g.textAttributes) :
    attributedStringFragmentHashLayoutWise U f = attributedStringFragmentHashLayoutWise U g := by
  obtain ⟨h₁, h₂, h₃, h₄, h₅, h₆, h₇, h₈, h₉, h₁₀, h₁₁⟩ := ha
  unfold attributedStringFragmentHashLayoutWise fragmentAttributesHashLayoutWise
  rw [hs, h₁, h₂, h₃, h₄, h₅, h₆, h₇, h₈, h₉, h₁₀, h₁₁]

end Decoration

theorem refFloatEquality_refl (x : RefFloat) : refPrims.floatEquality x x = true := by
  cases x <;> simp [refPrims, refFloatEquality]

theorem refFloatEquality_symm (x y : RefFloat) (h : refPrims.floatEquality x y = true) :
    refPrims.floatEquality y x = true := by
  cases x <;> cases y <;> simp_all [refPrims, refFloatEquality]
  rw [← Int.natAbs_neg, neg_sub]
  exact h

/-- C7 at two attachments that differ in `foregroundColor` and in the anchor `layoutMetrics`. -/
theorem fragmentHashLayoutWise_depends_only_on_layout_fields_witness :
    attributedStringFragmentHashLayoutWise refPrims (refFragment "\uFFFC" 14336 7 3) =
      attributedStringFragmentHashLayoutWise refPrims (refFragment "\uFFFC" 14336 9 8) :=
  fragmentHashLayoutWise_depends_only_on_layout_fields refPrims _ _ (by decide) (by decide)

/-! ## Font size -/

/-- C6. Anchor data takes part in the fragment predicate only for attachments. For fragments
`l` and `r` with equal text and layout-equivalent attributes: when the text is U+FFFC the
result is true exactly when the two `layoutMetrics` are equal; when the text is anything else
the result is true whatever the two `parentShadowView`s are. And for all fragments the result
is the same with `l` and `r` swapped, given that `floatEquality` is symmetric. -/
theorem anchor_compared_only_for_attachments {F : Type} (U : Prims F) (l r : Fragment F) :
    (l.string = r.string →
      areFragmentAttributesEquivalentLayoutWise U l.textAttributes r.textAttributes = true →
        (l.string = Fragment.AttachmentCharacter →
          (areAttributedStringFragmentsEquivalentLayoutWise U l r = true ↔
            l.parentShadowView.layoutMetrics = r.parentShadowView.layoutMetrics)) ∧
        (l.string ≠ Fragment.AttachmentCharacter →
          ∀ v w : ShadowView,
            areAttributedStringFragmentsEquivalentLayoutWise U
              { l with parentShadowView := v } { r with parentShadowView := w } = true)) ∧
    ((∀ x y, U.floatEquality x y = true → U.floatEquality y x = true) →
      areAttributedStringFragmentsEquivalentLayoutWise U r l =
        areAttributedStringFragmentsEquivalentLayoutWise U l r) := by
  constructor
  · intro hs ha
    constructor
    · intro hatt
      rw [areAttributedStringFragmentsEquivalentLayoutWise_iff]
      constructor
      · intro h
        exact h.2.2 (by simp [Fragment.isAttachment, hatt])
      · intro h
        exact ⟨hs, ha, fun _ => h⟩
    · intro hatt v w
      rw [areAttributedStringFragmentsEquivalentLayoutWise_iff]
      refine ⟨hs, ha, fun h => ?_⟩
      simp [Fragment.isAttachment] at h
      exact absurd h hatt
  · intro hsymm
    have attrs : ∀ x y : FragmentAttributes F,
        areFragmentAttributesEquivalentLayoutWise U x y = true →
          areFragmentAttributesEquivalentLayoutWise U y x = true := by
      intro x y h
      rw [areFragmentAttributesEquivalentLayoutWise_iff] at h ⊢
      obtain ⟨h₁, h₂, h₃, h₄, h₅, h₆, h₇, h₈, h₉, h₁₀, h₁₁⟩ := h
      exact ⟨h₁.symm, h₂.symm, h₃.symm, h₄.symm, h₅.symm, h₆.symm, h₇.symm,
        hsymm _ _ h₈, hsymm _ _ h₉, hsymm _ _ h₁₀, hsymm _ _ h₁₁⟩
    have swap : ∀ x y : Fragment F,
        areAttributedStringFragmentsEquivalentLayoutWise U x y = true →
          areAttributedStringFragmentsEquivalentLayoutWise U y x = true := by
      intro x y h
      rw [areAttributedStringFragmentsEquivalentLayoutWise_iff] at h ⊢
      refine ⟨h.1.symm, attrs _ _ h.2.1, fun hy => ?_⟩
      have hx : x.isAttachment = true := by
        simpa [Fragment.isAttachment, h.1] using hy
      exact (h.2.2 hx).symm
    rw [Bool.eq_iff_iff]
    exact ⟨swap r l, swap l r⟩

/-- C6 at two attachments with `layoutMetrics` 3 and 4 and `fontSize` within the tolerance. -/
theorem anchor_compared_only_for_attachments_witness :
    (areAttributedStringFragmentsEquivalentLayoutWise refPrims
        (refFragment "\uFFFC" 14336 0 3) (refFragment "\uFFFC" 14337 0 4) = true ↔
      (refFragment "\uFFFC" 14336 0 3).parentShadowView.layoutMetrics =
        (refFragment "\uFFFC" 14337 0 4).parentShadowView.layoutMetrics) ∧
    areAttributedStringFragmentsEquivalentLayoutWise refPrims
        (refFragment "\uFFFC" 14337 0 4) (refFragment "\uFFFC" 14336 0 3) =
      areAttributedStringFragmentsEquivalentLayoutWise refPrims
        (refFragment "\uFFFC" 14336 0 3) (refFragment "\uFFFC" 14337 0 4) :=
  have h := anchor_compared_only_for_attachments refPrims
    (refFragment "\uFFFC" 14336 0 3) (refFragment "\uFFFC" 14337 0 4)
  ⟨((h.1 rfl (by decide)).1 rfl), h.2 refFloatEquality_symm⟩

/-! ## Equivalence relations -/

section Relations

variable {F : Type} (U : Prims F)

theorem optSizeBeq_refl (hE : ∀ x, U.eqFloat x x = true) (o : Option (Size F)) :
    optSizeBeq U o o = true := by
  cases o <;> simp [optSizeBeq, Size.beq, hE]

theorem optSizeBeq_symm (hE : ∀ x y, U.eqFloat x y = true → U.eqFloat y x = true)
    (o₁ o₂ : Option (Size F)) (h : optSizeBeq U o₁ o₂ = true) : optSizeBeq U o₂ o₁ = true := by
  cases o₁ with
  | none => cases o₂ with
    | none => rfl
    | some b => simp [optSizeBeq] at h
  | some a => cases o₂ with
    | none => simp [optSizeBeq] at h
    | some b =>
      simp only [optSizeBeq, Size.beq, Bool.and_eq_true] at h ⊢
      exact ⟨hE _ _ h.1, hE _ _ h.2⟩

theorem optSizeBeq_trans
    (hE : ∀ x y z, U.eqFloat x y = true → U.eqFloat y z = true → U.eqFloat x z = true)
    (o₁ o₂ o₃ : Option (Size F)) (h : optSizeBeq U o₁ o₂ = true)
    (h' : optSizeBeq U o₂ o₃ = true) : optSizeBeq U o₁ o₃ = true := by
  cases o₁ with
  | none => cases o₂ with
    | none => exact h'
    | some b => simp [optSizeBeq] at h
  | some a => cases o₂ with
    | none => simp [optSizeBeq] at h
    | some b => cases o₃ with
      | none => simp [optSizeBeq] at h'
      | some c =>
        simp only [optSizeBeq, Size.beq, Bool.and_eq_true] at h h' ⊢
        exact ⟨hE _ _ _ h.1 h'.1, hE _ _ _ h.2 h'.2⟩

theorem textAttributes_beq_refl (hrefl : ∀ x, U.floatEquality x x = true)
    (hE : ∀ x, U.eqFloat x x = true) (x : TextAttributes F) :
    TextAttributes.beq U x x = true := by
  simp [TextAttributes.beq, hrefl, optSizeBeq_refl U hE]

theorem textAttributes_beq_symm
    (hsymm : ∀ x y, U.floatEquality x y = true → U.floatEquality y x = true)
    (hE : ∀ x y, U.eqFloat x y = true → U.eqFloat y x = true) (x y : TextAttributes F)
    (h : TextAttributes.beq U x y = true) : TextAttributes.beq U y x = true := by
  simp only [TextAttributes.beq, Bool.and_eq_true, beq_iff_eq, and_assoc] at h ⊢
  have hO := optSizeBeq_symm U hE x.textShadowOffset y.textShadowOffset
  obtain ⟨
    a1, a2, a3, a4, a5, a6, a7, a8, a9, a10, a11, a12, a13, a14, a15, a16, a17, a18, a19, a20,
    a21, a22, a23, a24, a25, a26, a27, a28⟩ := h
  exact ⟨
    a1.symm, a2.symm, a3.symm, a4.symm, a5.symm, a6.symm, a7.symm, a8.symm, a9.symm, a10.symm,
    a11.symm, a12.symm, a13.symm, a14.symm, hO a15, a16.symm, a17.symm, a18.symm, a19.symm,
    a20.symm, a21.symm, a22.symm, hsymm _ _ a23, hsymm _ _ a24, hsymm _ _ a25, hsymm _ _ a26,
    hsymm _ _ a27, hsymm _ _ a28⟩

theorem textAttributes_beq_trans
    (htrans : ∀ x y z, U.floatEquality x y = true → U.floatEquality y z = true →
      U.floatEquality x z = true)
    (hE : ∀ x y z, U.eqFloat x y = true → U.eqFloat y z = true → U.eqFloat x z = true)
    (x y z : TextAttributes F)
    (h : TextAttributes.beq U x y = true) (h' : TextAttributes.beq U y z = true) :
    TextAttributes.beq U x z = true := by
  simp only [TextAttributes.beq, Bool.and_eq_true, beq_iff_eq, and_assoc] at h h' ⊢
  have hO := optSizeBeq_trans U hE x.textShadowOffset y.textShadowOffset z.textShadowOffset
  obtain ⟨
    a1, a2, a3, a4, a5, a6, a7, a8, a9, a10, a11, a12, a13, a14, a15, a16, a17, a18, a19, a20,
    a21, a22, a23, a24, a25, a26, a27, a28⟩ := h
  obtain ⟨
    b1, b2, b3, b4, b5, b6, b7, b8, b9, b10, b11, b12, b13, b14, b15, b16, b17, b18, b19, b20,
    b21, b22, b23, b24, b25, b26, b27, b28⟩ := h'
  exact ⟨
    a1.trans b1, a2.trans b2, a3.trans b3, a4.trans b4, a5.trans b5, a6.trans b6, a7.trans b7,
    a8.trans b8, a9.trans b9, a10.trans b10, a11.trans b11, a12.trans b12, a13.trans b13,
    a14.trans b14, hO a15 b15, a16.trans b16, a17.trans b17, a18.trans b18, a19.trans b19,
    a20.trans b20, a21.trans b21, a22.trans b22, htrans _ _ _ a23 b23, htrans _ _ _ a24 b24,
    htrans _ _ _ a25 b25, htrans _ _ _ a26 b26, htrans _ _ _ a27 b27, htrans _ _ _ a28 b28⟩

theorem fragment_beq_refl (hrefl : ∀ x, U.floatEquality x x = true)
    (hE : ∀ x, U.eqFloat x x = true) (f : Fragment F) : Fragment.beq U f f = true := by
  simp [Fragment.beq, textAttributes_beq_refl U hrefl hE]

theorem fragment_beq_symm
    (hsymm : ∀ x y, U.floatEquality x y = true → U.floatEquality y x = true)
    (hE : ∀ x y, U.eqFloat x y = true → U.eqFloat y x = true) (f g : Fragment F)
    (h : Fragment.beq U f g = true) : Fragment.beq U g f = true := by
  simp only [Fragment.beq, Bool.and_eq_true, beq_iff_eq] at h ⊢
  exact ⟨⟨⟨h.1.1.1.symm, textAttributes_beq_symm U hsymm hE _ _ h.1.1.2⟩, h.1.2.symm⟩,
    h.2.symm⟩

theorem fragment_beq_trans
    (htrans : ∀ x y z, U.floatEquality x y = true → U.floatEquality y z = true →
      U.floatEquality x z = true)
    (hE : ∀ x y z, U.eqFloat x y = true → U.eqFloat y z = true → U.eqFloat x z = true)
    (f g k : Fragment F) (h : Fragment.beq U f g = true) (h' : Fragment.beq U g k = true) :
    Fragment.beq U f k = true := by
  simp only [Fragment.beq, Bool.and_eq_true, beq_iff_eq] at h h' ⊢
  exact ⟨⟨⟨h.1.1.1.trans h'.1.1.1, textAttributes_beq_trans U htrans hE _ _ _ h.1.1.2 h'.1.1.2⟩,
    h.1.2.trans h'.1.2⟩, h.2.trans h'.2⟩

theorem areFragmentAttributesEquivalentLayoutWise_symm
    (hsymm : ∀ x y, U.floatEquality x y = true → U.floatEquality y x = true)
    (x y : FragmentAttributes F) (h : areFragmentAttributesEquivalentLayoutWise U x y = true) :
    areFragmentAttributesEquivalentLayoutWise U y x = true := by
  rw [areFragmentAttributesEquivalentLayoutWise_iff] at h ⊢
  obtain ⟨h₁, h₂, h₃, h₄, h₅, h₆, h₇, h₈, h₉, h₁₀, h₁₁⟩ := h
  exact ⟨h₁.symm, h₂.symm, h₃.symm, h₄.symm, h₅.symm, h₆.symm, h₇.symm,
    hsymm _ _ h₈, hsymm _ _ h₉, hsymm _ _ h₁₀, hsymm _ _ h₁₁⟩

theorem areFragmentAttributesEquivalentLayoutWise_trans
    (htrans : ∀ x y z, U.floatEquality x y = true → U.floatEquality y z = true →
      U.floatEquality x z = true)
    (x y z : FragmentAttributes F) (h : areFragmentAttributesEquivalentLayoutWise U x y = true)
    (h' : areFragmentAttributesEquivalentLayoutWise U y z = true) :
    areFragmentAttributesEquivalentLayoutWise U x z = true := by
  rw [areFragmentAttributesEquivalentLayoutWise_iff] at h h' ⊢
  obtain ⟨a₁, a₂, a₃, a₄, a₅, a₆, a₇, a₈, a₉, a₁₀, a₁₁⟩ := h
  obtain ⟨b₁, b₂, b₃, b₄, b₅, b₆, b₇, b₈, b₉, b₁₀, b₁₁⟩ := h'
  exact ⟨a₁.trans b₁, a₂.trans b₂, a₃.trans b₃, a₄.trans b₄, a₅.trans b₅, a₆.trans b₆,
    a₇.trans b₇, htrans _ _ _ a₈ b₈, htrans _ _ _ a₉ b₉, htrans _ _ _ a₁₀ b₁₀,
    htrans _ _ _ a₁₁ b₁₁⟩

theorem areAttributedStringFragmentsEquivalentLayoutWise_refl
    (hrefl : ∀ x, U.floatEquality x x = true) (f : Fragment F) :
    areAttributedStringFragmentsEquivalentLayoutWise U f f = true :=
  areAttributedStringFragmentsEquivalentLayoutWise_of_same U hrefl f f
    ⟨rfl, rfl, rfl, rfl, rfl, rfl, rfl, rfl, rfl, rfl, rfl, rfl, rfl⟩

theorem areAttributedStringFragmentsEquivalentLayoutWise_symm
    (hsymm : ∀ x y, U.floatEquality x y = true → U.floatEquality y x = true)
    (f g : Fragment F) (h : areAttributedStringFragmentsEquivalentLayoutWise U f g = true) :
    areAttributedStringFragmentsEquivalentLayoutWise U g f = true := by
  rw [areAttributedStringFragmentsEquivalentLayoutWise_iff] at h ⊢
  refine ⟨h.1.symm, areFragmentAttributesEquivalentLayoutWise_symm U hsymm _ _ h.2.1,
    fun hg => ?_⟩
  have hf : f.isAttachment = true := by
    simpa [Fragment.isAttachment, h.1] using hg
  exact (h.2.2 hf).symm

theorem areAttributedStringFragmentsEquivalentLayoutWise_trans
    (htrans : ∀ x y z, U.floatEquality x y = true → U.floatEquality y z = true →
      U.floatEquality x z = true)
    (f g k : Fragment F) (h : areAttributedStringFragmentsEquivalentLayoutWise U f g = true)
    (h' : areAttributedStringFragmentsEquivalentLayoutWise U g k = true) :
    areAttributedStringFragmentsEquivalentLayoutWise U f k = true := by
  rw [areAttributedStringFragmentsEquivalentLayoutWise_iff] at h h' ⊢
  refine ⟨h.1.trans h'.1,
    areFragmentAttributesEquivalentLayoutWise_trans U htrans _ _ _ h.2.1 h'.2.1, fun hf => ?_⟩
  have hg : g.isAttachment = true := by
    simpa [Fragment.isAttachment, h.1] using hf
  exact (h.2.2 hf).trans (h'.2.2 hg)

theorem areAttributedStringsEquivalentLayoutWise_refl
    (hrefl : ∀ x, U.floatEquality x x = true) (a : AttributedString F) :
    areAttributedStringsEquivalentLayoutWise U a a = true :=
  equalSizeAndAll_refl _
    (fun s => equalSizeAndAll_refl _
      (areAttributedStringFragmentsEquivalentLayoutWise_refl U hrefl) s.fragments_)
    a.shards_

theorem areAttributedStringsEquivalentLayoutWise_symm
    (hsymm : ∀ x y, U.floatEquality x y = true → U.floatEquality y x = true)
    (a b : AttributedString F) (h : areAttributedStringsEquivalentLayoutWise U a b = true) :
    areAttributedStringsEquivalentLayoutWise U b a = true :=
  equalSizeAndAll_symm _
    (fun s t hst => equalSizeAndAll_symm _
      (areAttributedStringFragmentsEquivalentLayoutWise_symm U hsymm) s.fragments_
      t.fragments_ hst)
    a.shards_ b.shards_ h

theorem areAttributedStringsEquivalentLayoutWise_trans
    (htrans : ∀ x y z, U.floatEquality x y = true → U.floatEquality y z = true →
      U.floatEquality x z = true)
    (a b c : AttributedString F) (h : areAttributedStringsEquivalentLayoutWise U a b = true)
    (h' : areAttributedStringsEquivalentLayoutWise U b c = true) :
    areAttributedStringsEquivalentLayoutWise U a c = true :=
  equalSizeAndAll_trans _
    (fun s t u hst htu => equalSizeAndAll_trans _
      (areAttributedStringFragmentsEquivalentLayoutWise_trans U htrans) s.fragments_
      t.fragments_ u.fragments_ hst htu)
    a.shards_ b.shards_ c.shards_ h h'

end Relations

/-! ## The cache key -/

/-- C8 as stated fails. Two cache keys with the same string and paragraph attributes, whose
maximum width is `NaN` and which differ in `maximumSize.height` only, are not equal: `operator==`
compares the widths with `==`, and `NaN == NaN` is false. -/
theorem cacheKeys_with_nan_width_are_not_equal :
    TextMeasureCacheKey.beq refPrims
        { attributedString := refString [refFragment "a" 14336 0 0]
          paragraphAttributes := 2
          layoutConstraints :=
            { minimumSize := ⟨some 0, some 0⟩
              maximumSize := ⟨none, some 51200⟩
              layoutDirection := 1 } }
        { attributedString := refString [refFragment "a" 14336 0 0]
          paragraphAttributes := 2
          layoutConstraints :=
            { minimumSize := ⟨some 0, some 0⟩
              maximumSize := ⟨none, some 0⟩
              layoutDirection := 1 } } = false := by
  decide

/-- C8, amended. Two cache keys are equal exactly when their strings are layout-wise
equivalent, their paragraph attributes are equal and the widths of their maximum sizes are equal
under `==`. Two keys that agree on the string, the paragraph attributes and that width, and
differ in `maximumSize.height`, `minimumSize` or `layoutDirection`, have the same `std::hash`
value, and `k₁ == k₂` has the value of `k₁ == k₁`: they are equal exactly when the key is equal
to itself, that is, when its string is layout-wise equivalent to itself and its width equals
itself under `==`. -/
theorem cacheKey_equality_reads_width_only {F : Type} (U : Prims F)
    (k₁ k₂ : TextMeasureCacheKey F) :
    (TextMeasureCacheKey.beq U k₁ k₂ = true ↔
      areAttributedStringsEquivalentLayoutWise U k₁.attributedString k₂.attributedString = true ∧
      k₁.paragraphAttributes = k₂.paragraphAttributes ∧
      U.eqFloat k₁.layoutConstraints.maximumSize.width
        k₂.layoutConstraints.maximumSize.width = true) ∧
    (k₁.attributedString = k₂.attributedString →
      k₁.paragraphAttributes = k₂.paragraphAttributes →
      k₁.layoutConstraints.maximumSize.width = k₂.layoutConstraints.maximumSize.width →
        TextMeasureCacheKey.hash U k₁ = TextMeasureCacheKey.hash U k₂ ∧
        TextMeasureCacheKey.beq U k₁ k₂ = TextMeasureCacheKey.beq U k₁ k₁ ∧
        (areAttributedStringsEquivalentLayoutWise U k₁.attributedString k₁.attributedString
            = true →
          U.eqFloat k₁.layoutConstraints.maximumSize.width
            k₁.layoutConstraints.maximumSize.width = true →
          TextMeasureCacheKey.beq U k₁ k₂ = true)) := by
  constructor
  · simp only [TextMeasureCacheKey.beq, Bool.and_eq_true, beq_iff_eq, and_assoc]
  · intro hs hp hw
    refine ⟨?_, ?_, ?_⟩
    · unfold TextMeasureCacheKey.hash
      rw [hs, hp, hw]
    · unfold TextMeasureCacheKey.beq
      rw [← hs, ← hp, ← hw]
    · intro hself hE
      simp only [TextMeasureCacheKey.beq, Bool.and_eq_true, beq_iff_eq]
      refine ⟨⟨?_, hp⟩, ?_⟩
      · rw [← hs]
        exact hself
      · rw [← hw]
        exact hE

/-- The amended C8 at two keys with the same string, paragraph attributes and maximum width 100,
and different maximum height, minimum size and layout direction: same hash, and equal. -/
theorem cacheKey_equality_reads_width_only_witness :
    TextMeasureCacheKey.hash refPrims
        { attributedString := refString [refFragment "a" 14336 0 0]
          paragraphAttributes := 2
          layoutConstraints :=
            { minimumSize := ⟨some 0, some 0⟩
              maximumSize := ⟨some 102400, some 51200⟩
              layoutDirection := 1 } } =
      TextMeasureCacheKey.hash refPrims
        { attributedString := refString [refFragment "a" 14336 0 0]
          paragraphAttributes := 2
          layoutConstraints :=
            { minimumSize := ⟨some 1024, some 2048⟩
              maximumSize := ⟨some 102400, none⟩
              layoutDirection := 2 } } ∧
    TextMeasureCacheKey.beq refPrims
        { attributedString := refString [refFragment "a" 14336 0 0]
          paragraphAttributes := 2
          layoutConstraints :=
            { minimumSize := ⟨some 0, some 0⟩
              maximumSize := ⟨some 102400, some 51200⟩
              layoutDirection := 1 } }
        { attributedString := refString [refFragment "a" 14336 0 0]
          paragraphAttributes := 2
          layoutConstraints :=
            { minimumSize := ⟨some 1024, some 2048⟩
              maximumSize := ⟨some 102400, none⟩
              layoutDirection := 2 } } = true :=
  have h := (cacheKey_equality_reads_width_only refPrims _ _).2 rfl rfl rfl
  ⟨h.1, h.2.2 (by decide) (by decide)⟩

/-! ## Relations on the values that occur -/

section OnValues

variable {F : Type} (U : Prims F)

theorem equalSizeAndAll_refl_on {α : Type} (p : α → α → Bool) (l : List α)
    (hp : ∀ x ∈ l, p x x = true) : equalSizeAndAll p l l = true := by
  induction l with
  | nil => exact equalSizeAndAll_nil p
  | cons a l ih =>
    rw [equalSizeAndAll_cons, hp a (List.mem_cons_self a l),
      ih (fun x hx => hp x (List.mem_cons_of_mem a hx))]
    rfl

theorem equalSizeAndAll_trans_on {α : Type} (p : α → α → Bool) (l m r : List α)
    (hp : ∀ x ∈ l, ∀ y ∈ m, ∀ z ∈ r, p x y = true → p y z = true → p x z = true)
    (h₁ : equalSizeAndAll p l m = true) (h₂ : equalSizeAndAll p m r = true) :
    equalSizeAndAll p l r = true := by
  induction l generalizing m r with
  | nil =>
    cases m with
    | nil => exact h₂
    | cons b m => simp [equalSizeAndAll_nil_cons] at h₁
  | cons a l ih =>
    cases m with
    | nil => simp [equalSizeAndAll_cons_nil] at h₁
    | cons b m =>
      cases r with
      | nil => simp [equalSizeAndAll_cons_nil] at h₂
      | cons c r =>
        rw [equalSizeAndAll_cons, Bool.and_eq_true] at h₁ h₂
        rw [equalSizeAndAll_cons, Bool.and_eq_true]
        refine ⟨hp a (List.mem_cons_self a l) b (List.mem_cons_self b m) c
          (List.mem_cons_self c r) h₁.1 h₂.1, ih m r ?_ h₁.2 h₂.2⟩
        intro x hx y hy z hz
        exact hp x (List.mem_cons_of_mem a hx) y (List.mem_cons_of_mem b hy) z
          (List.mem_cons_of_mem c hz)

theorem mem_layoutFloats (a : AttributedString F) (x : Shard F) (f : Fragment F) (v : F)
    (hx : x ∈ a.shards_) (hf : f ∈ x.fragments_)
    (hv : v ∈ FragmentAttributes.layoutFloats f.textAttributes) : v ∈ a.layoutFloats := by
  simp only [AttributedString.layoutFloats, List.mem_flatMap]
  exact ⟨x, hx, f, hf, hv⟩

theorem mem_comparedFloats (a : AttributedString F) (x : Shard F) (f : Fragment F) (v : F)
    (hx : x ∈ a.shards_) (hf : f ∈ x.fragments_)
    (hv : v ∈ FragmentAttributes.comparedFloats f.textAttributes) : v ∈ a.comparedFloats := by
  simp only [AttributedString.comparedFloats, List.mem_flatMap]
  exact ⟨x, hx, f, hf, hv⟩

theorem mem_shadowOffsetFloats (a : AttributedString F) (x : Shard F) (f : Fragment F) (v : F)
    (hx : x ∈ a.shards_) (hf : f ∈ x.fragments_)
    (hv : v ∈ FragmentAttributes.shadowOffsetFloats f.textAttributes) :
    v ∈ a.shadowOffsetFloats := by
  simp only [AttributedString.shadowOffsetFloats, List.mem_flatMap]
  exact ⟨x, hx, f, hf, hv⟩

/-- Transitivity of the attribute predicate from transitivity of `floatEquality` on the values
of the three attribute sets. -/
theorem areFragmentAttributesEquivalentLayoutWise_trans_on (x y z : FragmentAttributes F)
    (hon : ∀ u ∈ x.layoutFloats, ∀ v ∈ y.layoutFloats, ∀ w ∈ z.layoutFloats,
      U.floatEquality u v = true → U.floatEquality v w = true → U.floatEquality u w = true)
    (h : areFragmentAttributesEquivalentLayoutWise U x y = true)
    (h' : areFragmentAttributesEquivalentLayoutWise U y z = true) :
    areFragmentAttributesEquivalentLayoutWise U x z = true := by
  rw [areFragmentAttributesEquivalentLayoutWise_iff] at h h' ⊢
  obtain ⟨a₁, a₂, a₃, a₄, a₅, a₆, a₇, a₈, a₉, a₁₀, a₁₁⟩ := h
  obtain ⟨b₁, b₂, b₃, b₄, b₅, b₆, b₇, b₈, b₉, b₁₀, b₁₁⟩ := h'
  have hon : ∀ u v w, u ∈ x.layoutFloats → v ∈ y.layoutFloats → w ∈ z.layoutFloats →
      U.floatEquality u v = true → U.floatEquality v w = true →
      U.floatEquality u w = true := fun u v w hu hv hw => hon u hu v hv w hw
  refine ⟨a₁.trans b₁, a₂.trans b₂, a₃.trans b₃, a₄.trans b₄, a₅.trans b₅, a₆.trans b₆,
    a₇.trans b₇, hon _ _ _ ?_ ?_ ?_ a₈ b₈, hon _ _ _ ?_ ?_ ?_ a₉ b₉,
    hon _ _ _ ?_ ?_ ?_ a₁₀ b₁₀, hon _ _ _ ?_ ?_ ?_ a₁₁ b₁₁⟩ <;>
    simp [FragmentAttributes.layoutFloats]

theorem areAttributedStringFragmentsEquivalentLayoutWise_trans_on (f g k : Fragment F)
    (hon : ∀ u ∈ FragmentAttributes.layoutFloats f.textAttributes,
      ∀ v ∈ FragmentAttributes.layoutFloats g.textAttributes,
      ∀ w ∈ FragmentAttributes.layoutFloats k.textAttributes,
      U.floatEquality u v = true → U.floatEquality v w = true → U.floatEquality u w = true)
    (h : areAttributedStringFragmentsEquivalentLayoutWise U f g = true)
    (h' : areAttributedStringFragmentsEquivalentLayoutWise U g k = true) :
    areAttributedStringFragmentsEquivalentLayoutWise U f k = true := by
  rw [areAttributedStringFragmentsEquivalentLayoutWise_iff] at h h' ⊢
  refine ⟨h.1.trans h'.1,
    areFragmentAttributesEquivalentLayoutWise_trans_on U _ _ _ hon h.2.1 h'.2.1, fun hf => ?_⟩
  have hg : g.isAttachment = true := by
    simpa [Fragment.isAttachment, h.1] using hf
  exact (h.2.2 hf).trans (h'.2.2 hg)

/-- Transitivity of layout-wise equivalence on three strings from transitivity of
`floatEquality` on the values of their layout-relevant `Float` attributes. -/
theorem areAttributedStringsEquivalentLayoutWise_trans_on (a b c : AttributedString F)
    (hon : ∀ x ∈ a.layoutFloats, ∀ y ∈ b.layoutFloats, ∀ z ∈ c.layoutFloats,
      U.floatEquality x y = true → U.floatEquality y z = true → U.floatEquality x z = true)
    (h : areAttributedStringsEquivalentLayoutWise U a b = true)
    (h' : areAttributedStringsEquivalentLayoutWise U b c = true) :
    areAttributedStringsEquivalentLayoutWise U a c = true := by
  refine equalSizeAndAll_trans_on _ a.shards_ b.shards_ c.shards_ ?_ h h'
  intro x hx y hy z hz hxy hyz
  refine equalSizeAndAll_trans_on _ x.fragments_ y.fragments_ z.fragments_ ?_ hxy hyz
  intro f hf g hg k hk
  refine areAttributedStringFragmentsEquivalentLayoutWise_trans_on U f g k ?_
  intro u hu v hv w hw
  exact hon u (mem_layoutFloats a x f u hx hf hu) v (mem_layoutFloats b y g v hy hg hv) w
    (mem_layoutFloats c z k w hz hk hw)

theorem optSizeBeq_refl_on (o : Option (Size F))
    (hE : ∀ v ∈ (match o with
      | none => []
      | some size => [size.width, size.height]), U.eqFloat v v = true) :
    optSizeBeq U o o = true := by
  cases o with
  | none => rfl
  | some size =>
    simp only [optSizeBeq, Size.beq, Bool.and_eq_true]
    exact ⟨hE _ (by simp), hE _ (by simp)⟩

theorem textAttributes_beq_refl_on (hrefl : ∀ x, U.floatEquality x x = true)
    (x : TextAttributes F)
    (hE : ∀ v ∈ FragmentAttributes.shadowOffsetFloats x, U.eqFloat v v = true) :
    TextAttributes.beq U x x = true := by
  simp [TextAttributes.beq, hrefl, optSizeBeq_refl_on U x.textShadowOffset hE]

theorem fragment_beq_refl_on (hrefl : ∀ x, U.floatEquality x x = true) (f : Fragment F)
    (hE : ∀ v ∈ FragmentAttributes.shadowOffsetFloats f.textAttributes,
      U.eqFloat v v = true) :
    Fragment.beq U f f = true := by
  simp [Fragment.beq, textAttributes_beq_refl_on U hrefl f.textAttributes hE]

theorem textAttributes_beq_trans_on
    (hE : ∀ x y z, U.eqFloat x y = true → U.eqFloat y z = true → U.eqFloat x z = true)
    (x y z : TextAttributes F)
    (hon : ∀ u ∈ FragmentAttributes.comparedFloats x,
      ∀ v ∈ FragmentAttributes.comparedFloats y, ∀ w ∈ FragmentAttributes.comparedFloats z,
      U.floatEquality u v = true → U.floatEquality v w = true → U.floatEquality u w = true)
    (h : TextAttributes.beq U x y = true) (h' : TextAttributes.beq U y z = true) :
    TextAttributes.beq U x z = true := by
  simp only [TextAttributes.beq, Bool.and_eq_true, beq_iff_eq, and_assoc] at h h' ⊢
  have hO := optSizeBeq_trans U hE x.textShadowOffset y.textShadowOffset z.textShadowOffset
  have hon : ∀ {u v w}, U.floatEquality u v = true → U.floatEquality v w = true →
      u ∈ FragmentAttributes.comparedFloats x → v ∈ FragmentAttributes.comparedFloats y →
      w ∈ FragmentAttributes.comparedFloats z → U.floatEquality u w = true :=
    fun huv hvw hu hv hw => hon _ hu _ hv _ hw huv hvw
  obtain ⟨
    a1, a2, a3, a4, a5, a6, a7, a8, a9, a10, a11, a12, a13, a14, a15, a16, a17, a18, a19, a20,
    a21, a22, a23, a24, a25, a26, a27, a28⟩ := h
  obtain ⟨
    b1, b2, b3, b4, b5, b6, b7, b8, b9, b10, b11, b12, b13, b14, b15, b16, b17, b18, b19, b20,
    b21, b22, b23, b24, b25, b26, b27, b28⟩ := h'
  exact ⟨
    a1.trans b1, a2.trans b2, a3.trans b3, a4.trans b4, a5.trans b5, a6.trans b6, a7.trans b7,
    a8.trans b8, a9.trans b9, a10.trans b10, a11.trans b11, a12.trans b12, a13.trans b13,
    a14.trans b14, hO a15 b15, a16.trans b16, a17.trans b17, a18.trans b18, a19.trans b19,
    a20.trans b20, a21.trans b21, a22.trans b22,
    hon a23 b23
      (by simp [FragmentAttributes.comparedFloats])
      (by simp [FragmentAttributes.comparedFloats])
      (by simp [FragmentAttributes.comparedFloats]),
    hon a24 b24
      (by simp [FragmentAttributes.comparedFloats])
      (by simp [FragmentAttributes.comparedFloats])
      (by simp [FragmentAttributes.comparedFloats]),
    hon a25 b25
      (by simp [FragmentAttributes.comparedFloats])
      (by simp [FragmentAttributes.comparedFloats])
      (by simp [FragmentAttributes.comparedFloats]),
    hon a26 b26
      (by simp [FragmentAttributes.comparedFloats])
      (by simp [FragmentAttributes.comparedFloats])
      (by simp [FragmentAttributes.comparedFloats]),
    hon a27 b27
      (by simp [FragmentAttributes.comparedFloats])
      (by simp [FragmentAttributes.comparedFloats])
      (by simp [FragmentAttributes.comparedFloats]),
    hon a28 b28
      (by simp [FragmentAttributes.comparedFloats])
      (by simp [FragmentAttributes.comparedFloats])
      (by simp [FragmentAttributes.comparedFloats])⟩

theorem fragment_beq_trans_on
    (hE : ∀ x y z, U.eqFloat x y = true → U.eqFloat y z = true → U.eqFloat x z = true)
    (f g k : Fragment F)
    (hon : ∀ u ∈ FragmentAttributes.comparedFloats f.textAttributes,
      ∀ v ∈ FragmentAttributes.comparedFloats g.textAttributes,
      ∀ w ∈ FragmentAttributes.comparedFloats k.textAttributes,
      U.floatEquality u v = true → U.floatEquality v w = true → U.floatEquality u w = true)
    (h : Fragment.beq U f g = true) (h' : Fragment.beq U g k = true) :
    Fragment.beq U f k = true := by
  simp only [Fragment.beq, Bool.and_eq_true, beq_iff_eq] at h h' ⊢
  exact ⟨⟨⟨h.1.1.1.trans h'.1.1.1,
    textAttributes_beq_trans_on U hE _ _ _ hon h.1.1.2 h'.1.1.2⟩, h.1.2.trans h'.1.2⟩,
    h.2.trans h'.2⟩

/-- Reflexivity of `operator==` on a string in which every component of a `textShadowOffset`
equals itself under `==`. -/
theorem attributedString_beq_refl_on (hrefl : ∀ x, U.floatEquality x x = true)
    (a : AttributedString F) (hE : ∀ v ∈ a.shadowOffsetFloats, U.eqFloat v v = true) :
    AttributedString.beq U a a = true := by
  refine equalSizeAndAll_refl_on _ a.shards_ (fun x hx => ?_)
  refine equalSizeAndAll_refl_on _ x.fragments_ (fun f hf => ?_)
  exact fragment_beq_refl_on U hrefl f
    (fun v hv => hE v (mem_shadowOffsetFloats a x f v hx hf hv))

/-- Transitivity of `operator==` on three strings from transitivity of `floatEquality` on the
values of their `Float` attributes. -/
theorem attributedString_beq_trans_on
    (hE : ∀ x y z, U.eqFloat x y = true → U.eqFloat y z = true → U.eqFloat x z = true)
    (a b c : AttributedString F)
    (hon : ∀ x ∈ a.comparedFloats, ∀ y ∈ b.comparedFloats, ∀ z ∈ c.comparedFloats,
      U.floatEquality x y = true → U.floatEquality y z = true → U.floatEquality x z = true)
    (h : AttributedString.beq U a b = true) (h' : AttributedString.beq U b c = true) :
    AttributedString.beq U a c = true := by
  refine equalSizeAndAll_trans_on _ a.shards_ b.shards_ c.shards_ ?_ h h'
  intro x hx y hy z hz hxy hyz
  refine equalSizeAndAll_trans_on _ x.fragments_ y.fragments_ z.fragments_ ?_ hxy hyz
  intro f hf g hg k hk
  refine fragment_beq_trans_on U hE f g k ?_
  intro u hu v hv w hw
  exact hon u (mem_comparedFloats a x f u hx hf hu) v (mem_comparedFloats b y g v hy hg hv) w
    (mem_comparedFloats c z k w hz hk hw)

end OnValues

theorem refEqFloat_symm (x y : RefFloat) (h : refPrims.eqFloat x y = true) :
    refPrims.eqFloat y x = true := by
  cases x <;> cases y <;> simp_all [refPrims, refEqFloat]

theorem refEqFloat_trans (x y z : RefFloat) (h : refPrims.eqFloat x y = true)
    (h' : refPrims.eqFloat y z = true) : refPrims.eqFloat x z = true := by
  cases x <;> cases y <;> cases z <;> simp_all [refPrims, refEqFloat]

/-! ## Layout-wise equivalence as a relation -/

section Sealing

variable {F : Type}

theorem shard_seal_idem (x : Shard F) : x.seal.seal = x.seal := rfl

theorem attributedString_seal_idem (s : AttributedString F) : s.seal.seal = s.seal := by
  simp [AttributedString.seal, AttributedString.sealChildren, Shard.seal]

theorem attributedString_seal_sealed (s : AttributedString F) : s.seal.sealed_ = true := rfl

/-- C11. After `seal()`, called once or twice, each of the six mutation operations of an
`AttributedString` stops at the sealed-mutation violation, whatever the argument is, and leaves
the string as it was. -/
theorem sealed_string_rejects_every_mutation (s o : AttributedString F) (x : Shard F)
    (f : Fragment F) :
    s.seal.seal = s.seal ∧
    s.seal.appendShard x = (.error .sealedMutation, s.seal) ∧
    s.seal.prependShard x = (.error .sealedMutation, s.seal) ∧
    s.seal.appendFragment f = (.error .sealedMutation, s.seal) ∧
    s.seal.prependFragment f = (.error .sealedMutation, s.seal) ∧
    s.seal.appendAttributedString o = (.error .sealedMutation, s.seal) ∧
    s.seal.prependAttributedString o = (.error .sealedMutation, s.seal) :=
  ⟨attributedString_seal_idem s, rfl, rfl, rfl, rfl, rfl, rfl⟩

/-- C12. Sealing is transitive: after `seal()` on an `AttributedString` every shard of its
shard sequence is sealed, and `Shard::appendFragment` and `Shard::prependFragment` on such a
shard stop at the sealed-mutation violation and leave the shard as it was. -/
theorem seal_reaches_every_shard (s : AttributedString F) (x : Shard F)
    (hx : x ∈ s.seal.shards_) (f : Fragment F) :
    x.sealed_ = true ∧
    x.appendFragment f = (.error .sealedMutation, x) ∧
    x.prependFragment f = (.error .sealedMutation, x) := by
  have hsealed : x.sealed_ = true := by
    simp only [AttributedString.seal, AttributedString.sealChildren, List.mem_map] at hx
    obtain ⟨y, _, rfl⟩ := hx
    rfl
  refine ⟨hsealed, ?_, ?_⟩
  · simp [Shard.appendFragment, Sealable.ensureUnsealed, hsealed]
  · simp [Shard.prependFragment, Sealable.ensureUnsealed, hsealed]

end Sealing

/-- C12 at the shard of a sealed one-fragment string and the fragment `"b"`. -/
theorem seal_reaches_every_shard_witness :
    (Shard.seal ⟨[refFragment "a" 14336 0 0], false⟩).sealed_ = true ∧
    (Shard.seal ⟨[refFragment "a" 14336 0 0], false⟩).appendFragment (refFragment "b" 14336 0 0) =
      (.error .sealedMutation, Shard.seal ⟨[refFragment "a" 14336 0 0], false⟩) ∧
    (Shard.seal ⟨[refFragment "a" 14336 0 0], false⟩).prependFragment (refFragment "b" 14336 0 0) =
      (.error .sealedMutation, Shard.seal ⟨[refFragment "a" 14336 0 0], false⟩) :=
  seal_reaches_every_shard (refString [refFragment "a" 14336 0 0]) _
    (List.mem_singleton.2 rfl) (refFragment "b" 14336 0 0)

/-! ## Insertion -/

section Insertion

variable {F : Type}

theorem isEmpty_eq_false_of_ne {t : String} (h : t ≠ "") : t.isEmpty = false := by
  rw [Bool.eq_false_iff]
  intro h'
  exact h ((String.isEmpty_iff t).1 h')

theorem isEmpty_eq_true_of_eq {t : String} (h : t = "") : t.isEmpty = true :=
  (String.isEmpty_iff t).2 h

theorem Shard.appendFragment_of_empty (x : Shard F) (f : Fragment F) (hx : x.sealed_ = false)
    (hf : f.string = "") : x.appendFragment f = (.ok (), x) := by
  simp [Shard.appendFragment, Sealable.ensureUnsealed, hx, isEmpty_eq_true_of_eq hf]

theorem Shard.appendFragment_of_ne (x : Shard F) (f : Fragment F) (hx : x.sealed_ = false)
    (hf : f.string ≠ "") :
    x.appendFragment f = (.ok (), { x with fragments_ := x.fragments_ ++ [f] }) := by
  simp [Shard.appendFragment, Sealable.ensureUnsealed, hx, isEmpty_eq_false_of_ne hf]

theorem Shard.prependFragment_of_empty (x : Shard F) (f : Fragment F) (hx : x.sealed_ = false)
    (hf : f.string = "") : x.prependFragment f = (.ok (), x) := by
  simp [Shard.prependFragment, Sealable.ensureUnsealed, hx, isEmpty_eq_true_of_eq hf]

theorem Shard.prependFragment_of_ne (x : Shard F) (f : Fragment F) (hx : x.sealed_ = false)
    (hf : f.string ≠ "") :
    x.prependFragment f = (.ok (), { x with fragments_ := f :: x.fragments_ }) := by
  simp [Shard.prependFragment, Sealable.ensureUnsealed, hx, isEmpty_eq_false_of_ne hf]

/-- C13. On an unsealed shard with fragment list `fs`, `Shard::appendFragment(f)` returns and
leaves the shard as it was when `f.string` is empty, and with the list `fs` followed by `f`
otherwise; `Shard::prependFragment(f)` leaves the shard as it was when `f.string` is empty, and
with the list `f` followed by `fs` otherwise. -/
theorem shard_insertion_at_end_and_start (x : Shard F) (f : Fragment F)
    (hx : x.sealed_ = false) :
    (f.string = "" → x.appendFragment f = (.ok (), x) ∧ x.prependFragment f = (.ok (), x)) ∧
    (f.string ≠ "" →
      x.appendFragment f = (.ok (), { x with fragments_ := x.fragments_ ++ [f] }) ∧
      x.prependFragment f = (.ok (), { x with fragments_ := f :: x.fragments_ })) :=
  ⟨fun hf => ⟨Shard.appendFragment_of_empty x f hx hf, Shard.prependFragment_of_empty x f hx hf⟩,
    fun hf => ⟨Shard.appendFragment_of_ne x f hx hf, Shard.prependFragment_of_ne x f hx hf⟩⟩

/-- C14. On an unsealed string whose first shard `root` is unsealed and holds fewer than
`2 ^ 64` fragments, and for a fragment `f` with non-empty text: `appendFragment(f)` returns the
handle `{0, n}`, `n` being the number of fragments of `root` before the call, and
`prependFragment(f)` returns `{0, 0}`; in both cases `getFragment` at the returned handle finds
`f` after the call. -/
theorem fragment_handle_locates_insertion (s : AttributedString F) (f : Fragment F)
    (root : Shard F) (rest : List (Shard F))
    (hs : s.sealed_ = false) (hshards : s.shards_ = root :: rest)
    (hroot : root.sealed_ = false) (hsize : root.fragments_.length < 2 ^ 64)
    (hf : f.string ≠ "") :
    ((s.appendFragment f).1 = .ok ⟨0, root.fragments_.length⟩ ∧
      (s.appendFragment f).after.getFragment ⟨0, root.fragments_.length⟩ = some f) ∧
    ((s.prependFragment f).1 = .ok ⟨0, 0⟩ ∧
      (s.prependFragment f).after.getFragment ⟨0, 0⟩ = some f) := by
  refine ⟨⟨?_, ?_⟩, ⟨?_, ?_⟩⟩
  · simp [AttributedString.appendFragment, Sealable.ensureUnsealed, hs, hshards,
      Shard.appendFragment_of_ne root f hroot hf]
    omega
  · simp [AttributedString.appendFragment, Sealable.ensureUnsealed, hs, hshards,
      Shard.appendFragment_of_ne root f hroot hf, AttributedString.getFragment]
  · simp [AttributedString.prependFragment, Sealable.ensureUnsealed, hs, hshards,
      Shard.prependFragment_of_ne root f hroot hf]
  · simp [AttributedString.prependFragment, Sealable.ensureUnsealed, hs, hshards,
      Shard.prependFragment_of_ne root f hroot hf, AttributedString.getFragment]

/-- C15. Insertion of a fragment with empty text changes nothing: whatever the string is,
`appendFragment(f)` and `prependFragment(f)` leave it exactly as it was (every shard, every
fragment list, the seal flags), so that `isEmpty()` returns what it returned before; and on an
unsealed string whose first shard is unsealed both calls return. -/
theorem empty_text_insertion_changes_nothing (s : AttributedString F) (f : Fragment F)
    (hf : f.string = "") :
    (s.appendFragment f).after = s ∧ (s.prependFragment f).after = s ∧
    (s.appendFragment f).after.isEmpty = s.isEmpty ∧
    (s.prependFragment f).after.isEmpty = s.isEmpty ∧
    (∀ (root : Shard F) (rest : List (Shard F)), s.sealed_ = false →
      s.shards_ = root :: rest → root.sealed_ = false →
        (s.appendFragment f).1 =
            .ok ⟨0, (root.fragments_.length + (2 ^ 64 - 1)) % 2 ^ 64⟩ ∧
          (s.prependFragment f).1 = .ok ⟨0, 0⟩) := by
  have happ : (s.appendFragment f).after = s := by
    unfold AttributedString.appendFragment Outcome.after
    cases hs : s.sealed_
    · rcases hsh : s.shards_ with _ | ⟨root, rest⟩
      · simp [Sealable.ensureUnsealed]
      · cases hr : root.sealed_
        · simp only [Sealable.ensureUnsealed, Shard.appendFragment_of_empty root f hr hf]
          cases s
          simp_all
        · simp [Sealable.ensureUnsealed, Shard.appendFragment, hr]
    · simp [Sealable.ensureUnsealed]
  have hpre : (s.prependFragment f).after = s := by
    unfold AttributedString.prependFragment Outcome.after
    cases hs : s.sealed_
    · rcases hsh : s.shards_ with _ | ⟨root, rest⟩
      · simp [Sealable.ensureUnsealed]
      · cases hr : root.sealed_
        · simp only [Sealable.ensureUnsealed, Shard.prependFragment_of_empty root f hr hf]
          cases s
          simp_all
        · simp [Sealable.ensureUnsealed, Shard.prependFragment, hr]
    · simp [Sealable.ensureUnsealed]
  refine ⟨happ, hpre, by rw [happ], by rw [hpre], ?_⟩
  intro root rest hs hsh hr
  constructor
  · simp [AttributedString.appendFragment, Sealable.ensureUnsealed, hs, hsh,
      Shard.appendFragment_of_empty root f hr hf]
  · simp [AttributedString.prependFragment, Sealable.ensureUnsealed, hs, hsh,
      Shard.prependFragment_of_empty root f hr hf]

/-- C16. On an unsealed string with shard sequence `ss`, `appendShard(x)` and `prependShard(x)`
return; they leave the string as it was when `x` has no fragments, and otherwise leave the
sequence `ss` followed by `x`, respectively `x` followed by `ss`. -/
theorem shard_insertion_into_string (s : AttributedString F) (x : Shard F)
    (hs : s.sealed_ = false) :
    (x.fragments_ = [] → s.appendShard x = (.ok (), s) ∧ s.prependShard x = (.ok (), s)) ∧
    (x.fragments_ ≠ [] →
      s.appendShard x = (.ok (), { s with shards_ := s.shards_ ++ [x] }) ∧
      s.prependShard x = (.ok (), { s with shards_ := x :: s.shards_ })) := by
  constructor
  · intro hx
    simp [AttributedString.appendShard, AttributedString.prependShard, Sealable.ensureUnsealed,
      hs, Shard.isEmpty, hx]
  · intro hx
    simp [AttributedString.appendShard, AttributedString.prependShard, Sealable.ensureUnsealed,
      hs, Shard.isEmpty, hx]

end Insertion

/-- C13 at the unsealed shard `["a"]`, with the empty fragment and with the fragment `"b"`. -/
theorem shard_insertion_at_end_and_start_witness :
    (Shard.appendFragment ⟨[refFragment "a" 14336 0 0], false⟩ (refFragment "" 14336 0 0) =
        (.ok (), ⟨[refFragment "a" 14336 0 0], false⟩) ∧
      Shard.prependFragment ⟨[refFragment "a" 14336 0 0], false⟩ (refFragment "" 14336 0 0) =
        (.ok (), ⟨[refFragment "a" 14336 0 0], false⟩)) ∧
    (Shard.appendFragment ⟨[refFragment "a" 14336 0 0], false⟩ (refFragment "b" 14336 0 0) =
        (.ok (), ⟨[refFragment "a" 14336 0 0, refFragment "b" 14336 0 0], false⟩) ∧
      Shard.prependFragment ⟨[refFragment "a" 14336 0 0], false⟩ (refFragment "b" 14336 0 0) =
        (.ok (), ⟨[refFragment "b" 14336 0 0, refFragment "a" 14336 0 0], false⟩)) :=
  ⟨(shard_insertion_at_end_and_start ⟨[refFragment "a" 14336 0 0], false⟩
      (refFragment "" 14336 0 0) rfl).1 rfl,
    (shard_insertion_at_end_and_start ⟨[refFragment "a" 14336 0 0], false⟩
      (refFragment "b" 14336 0 0) rfl).2 (by decide)⟩

/-- C14 at the string `["a"]` and the fragment `"b"`: the handles are `{0, 1}` and `{0, 0}`. -/
theorem fragment_handle_locates_insertion_witness :
    (((refString [refFragment "a" 14336 0 0]).appendFragment (refFragment "b" 14336 0 0)).1 =
        .ok ⟨0, 1⟩ ∧
      ((refString [refFragment "a" 14336 0 0]).appendFragment
        (refFragment "b" 14336 0 0)).after.getFragment ⟨0, 1⟩ =
          some (refFragment "b" 14336 0 0)) ∧
    (((refString [refFragment "a" 14336 0 0]).prependFragment (refFragment "b" 14336 0 0)).1 =
        .ok ⟨0, 0⟩ ∧
      ((refString [refFragment "a" 14336 0 0]).prependFragment
        (refFragment "b" 14336 0 0)).after.getFragment ⟨0, 0⟩ =
          some (refFragment "b" 14336 0 0)) :=
  fragment_handle_locates_insertion (refString [refFragment "a" 14336 0 0])
    (refFragment "b" 14336 0 0) ⟨[refFragment "a" 14336 0 0], false⟩ [] rfl rfl rfl
    (by decide) (by decide)

/-- C15 at the string `["a"]` and a fragment with empty text. -/
theorem empty_text_insertion_changes_nothing_witness :
    ((refString [refFragment "a" 14336 0 0]).appendFragment (refFragment "" 14336 0 0)).after =
        refString [refFragment "a" 14336 0 0] ∧
      ((refString [refFragment "a" 14336 0 0]).prependFragment
        (refFragment "" 14336 0 0)).after = refString [refFragment "a" 14336 0 0] ∧
      ((refString [refFragment "a" 14336 0 0]).appendFragment (refFragment "" 14336 0 0)).1 =
        .ok ⟨0, 0⟩ :=
  have h := empty_text_insertion_changes_nothing (refString [refFragment "a" 14336 0 0])
    (refFragment "" 14336 0 0) rfl
  ⟨h.1, h.2.1, (h.2.2.2.2 ⟨[refFragment "a" 14336 0 0], false⟩ [] rfl rfl rfl).1⟩

/-- C16 at the string `["a"]`, with a shard without fragments and with the shard `["b"]`. -/
theorem shard_insertion_into_string_witness :
    ((refString [refFragment "a" 14336 0 0]).appendShard ⟨[], false⟩ =
        (.ok (), refString [refFragment "a" 14336 0 0]) ∧
      (refString [refFragment "a" 14336 0 0]).prependShard ⟨[], false⟩ =
        (.ok (), refString [refFragment "a" 14336 0 0])) ∧
    ((refString [refFragment "a" 14336 0 0]).appendShard ⟨[refFragment "b" 14336 0 0], false⟩ =
        (.ok (), ⟨[⟨[refFragment "a" 14336 0 0], false⟩, ⟨[refFragment "b" 14336 0 0], false⟩],
          false⟩) ∧
      (refString [refFragment "a" 14336 0 0]).prependShard ⟨[refFragment "b" 14336 0 0], false⟩ =
        (.ok (), ⟨[⟨[refFragment "b" 14336 0 0], false⟩, ⟨[refFragment "a" 14336 0 0], false⟩],
          false⟩)) :=
  ⟨(shard_insertion_into_string (refString [refFragment "a" 14336 0 0]) ⟨[], false⟩ rfl).1 rfl,
    (shard_insertion_into_string (refString [refFragment "a" 14336 0 0])
      ⟨[refFragment "b" 14336 0 0], false⟩ rfl).2 (by simp)⟩

/-! ## Joined string, fragments, attachments -/

section Queries

variable {F : Type}

theorem foldl_append_init (l : List String) (init : String) :
    l.foldl (fun r t => r ++ t) init = init ++ l.foldl (fun r t => r ++ t) "" := by
  induction l generalizing init with
  | nil => simp
  | cons a l ih =>
    simp only [List.foldl_cons]
    rw [ih (init ++ a), ih ("" ++ a), String.empty_append, String.append_assoc]

theorem string_join_cons (a : String) (l : List String) :
    String.join (a :: l) = a ++ String.join l := by
  simp only [String.join, List.foldl_cons]
  rw [foldl_append_init, String.empty_append]

theorem string_join_append (l₁ l₂ : List String) :
    String.join (l₁ ++ l₂) = String.join l₁ ++ String.join l₂ := by
  induction l₁ with
  | nil => simp [String.join]
  | cons a l ih => rw [List.cons_append, string_join_cons, string_join_cons, ih,
      String.append_assoc]

theorem foldl_string_append {α : Type} (g : α → String) (l : List α) (init : String) :
    l.foldl (fun acc x => acc ++ g x) init = init ++ String.join (l.map g) := by
  induction l generalizing init with
  | nil => simp [String.join]
  | cons a l ih =>
    rw [List.foldl_cons, ih, List.map_cons, string_join_cons, String.append_assoc]

theorem shard_getString_eq (x : Shard F) :
    x.getString = String.join (x.fragments_.map Fragment.string) := by
  unfold Shard.getString
  rw [foldl_string_append, String.empty_append]

theorem getJoinedString_eq_join_shards (s : AttributedString F) :
    s.getJoinedString = String.join (s.shards_.map Shard.getString) := by
  unfold AttributedString.getJoinedString
  rw [foldl_string_append, String.empty_append]

theorem foldl_push_back {α : Type} (l acc : List α) :
    l.foldl (fun fragments fragment => fragments ++ [fragment]) acc = acc ++ l := by
  induction l generalizing acc with
  | nil => simp
  | cons a l ih => simp [ih]

theorem foldl_getAllFragments (l : List (Shard F)) (acc : List (Fragment F)) :
    l.foldl
        (fun fragments shard =>
          shard.fragments_.foldl (fun fragments fragment => fragments ++ [fragment]) fragments)
        acc =
      acc ++ (l.map Shard.fragments_).flatten := by
  induction l generalizing acc with
  | nil => simp
  | cons a l ih =>
    rw [List.foldl_cons, ih, foldl_push_back, List.map_cons, List.flatten_cons,
      List.append_assoc]

/-- The fragments of all shards, in order. -/
theorem getAllFragments_eq_flatten (s : AttributedString F) :
    s.getAllFragments = (s.shards_.map Shard.fragments_).flatten := by
  unfold AttributedString.getAllFragments
  rw [foldl_getAllFragments, List.nil_append]

theorem string_join_flatten (l : List (List String)) :
    String.join l.flatten = String.join (l.map String.join) := by
  induction l with
  | nil => rfl
  | cons a l ih =>
    rw [List.flatten_cons, string_join_append, ih, List.map_cons, string_join_cons]

/-- The joined string is the concatenation of the texts of `getAllFragments()`. -/
theorem getJoinedString_eq_join_fragments (s : AttributedString F) :
    s.getJoinedString = String.join (s.getAllFragments.map Fragment.string) := by
  rw [getJoinedString_eq_join_shards, getAllFragments_eq_flatten, List.map_flatten,
    string_join_flatten, List.map_map, List.map_map]
  congr 1
  apply List.map_congr_left
  intro x _
  exact shard_getString_eq x

end Queries

/-! ## Splicing -/

/-- C17. On an unsealed string with shard sequence `ss`, and for any other string with shard
sequence `os`: `appendAttributedString` returns and leaves the sequence `ss` followed by all of
`os`, `prependAttributedString` returns and leaves all of `os` followed by `ss`, shards without
fragments included; the joined string of the result is the joined string of the one followed by
that of the other, in the same order. The argument is read only. -/
theorem splice_keeps_every_shard {F : Type} (s o : AttributedString F)
    (hs : s.sealed_ = false) :
    s.appendAttributedString o = (.ok (), { s with shards_ := s.shards_ ++ o.shards_ }) ∧
    s.prependAttributedString o = (.ok (), { s with shards_ := o.shards_ ++ s.shards_ }) ∧
    (s.appendAttributedString o).after.getJoinedString =
      s.getJoinedString ++ o.getJoinedString ∧
    (s.prependAttributedString o).after.getJoinedString =
      o.getJoinedString ++ s.getJoinedString := by
  have h₁ : s.appendAttributedString o =
      (.ok (), { s with shards_ := s.shards_ ++ o.shards_ }) := by
    simp [AttributedString.appendAttributedString, Sealable.ensureUnsealed, hs]
  have h₂ : s.prependAttributedString o =
      (.ok (), { s with shards_ := o.shards_ ++ s.shards_ }) := by
    simp [AttributedString.prependAttributedString, Sealable.ensureUnsealed, hs]
  refine ⟨h₁, h₂, ?_, ?_⟩
  · rw [h₁]
    simp only [Outcome.after, getJoinedString_eq_join_shards, List.map_append,
      string_join_append]
  · rw [h₂]
    simp only [Outcome.after, getJoinedString_eq_join_shards, List.map_append,
      string_join_append]

/-- C17 at the strings `["a"]` and `[], ["b"]`: the shard without fragments is spliced in. -/
theorem splice_keeps_every_shard_witness :
    (refString [refFragment "a" 14336 0 0]).appendAttributedString
        ⟨[⟨[], false⟩, ⟨[refFragment "b" 14336 0 0], false⟩], false⟩ =
      (.ok (), ⟨[⟨[refFragment "a" 14336 0 0], false⟩, ⟨[], false⟩,
        ⟨[refFragment "b" 14336 0 0], false⟩], false⟩) ∧
    ((refString [refFragment "a" 14336 0 0]).prependAttributedString
        ⟨[⟨[], false⟩, ⟨[refFragment "b" 14336 0 0], false⟩], false⟩).after.getJoinedString =
      AttributedString.getJoinedString
          (⟨[⟨[], false⟩, ⟨[refFragment "b" 14336 0 0], false⟩], false⟩ :
            AttributedString RefFloat) ++
        (refString [refFragment "a" 14336 0 0]).getJoinedString :=
  have h := splice_keeps_every_shard (refString [refFragment "a" 14336 0 0])
    ⟨[⟨[], false⟩, ⟨[refFragment "b" 14336 0 0], false⟩], false⟩ rfl
  ⟨h.1, h.2.2.2⟩

/-! ## The joined string -/

section Joined

variable {F : Type}

theorem appendFragment_single_shard (l : List (Fragment F)) (f : Fragment F) :
    (AttributedString.appendFragment ⟨[⟨l, false⟩], false⟩ f).after =
      ⟨[⟨l ++ [f].filter (fun g => !g.string.isEmpty), false⟩], false⟩ := by
  cases h : f.string.isEmpty <;>
    simp [AttributedString.appendFragment, Shard.appendFragment, Sealable.ensureUnsealed,
      Outcome.after, h]

theorem appendFragments_single_shard (fs l : List (Fragment F)) :
    appendFragments ⟨[⟨l, false⟩], false⟩ fs =
      ⟨[⟨l ++ fs.filter (fun g => !g.string.isEmpty), false⟩], false⟩ := by
  induction fs generalizing l with
  | nil => simp [appendFragments]
  | cons f fs ih =>
    have hstep : appendFragments ⟨[⟨l, false⟩], false⟩ (f :: fs) =
        appendFragments (AttributedString.appendFragment ⟨[⟨l, false⟩], false⟩ f).after fs := rfl
    rw [hstep, appendFragment_single_shard, ih, List.append_assoc, ← List.filter_append,
      List.singleton_append]

theorem string_join_filter_nonempty (fs : List (Fragment F)) :
    String.join ((fs.filter (fun g => !g.string.isEmpty)).map Fragment.string) =
      String.join (fs.map Fragment.string) := by
  induction fs with
  | nil => rfl
  | cons f fs ih =>
    cases h : f.string.isEmpty
    · simp only [List.filter_cons, h, Bool.not_false, if_true, List.map_cons, string_join_cons, ih]
    · have hf : f.string = "" := (String.isEmpty_iff _).1 h
      have hfilter : (f :: fs).filter (fun g => !g.string.isEmpty) =
          fs.filter (fun g => !g.string.isEmpty) := by
        simp [List.filter_cons, h]
      rw [hfilter, ih, List.map_cons, string_join_cons, hf, String.empty_append]

/-- C18. `getJoinedString()` is the concatenation, in order, of the texts of
`getAllFragments()`. After `appendFragment` has been called on a new string for each of the
fragments `f1 .. fn` in order, the fragments of the string are those of `f1 .. fn` with
non-empty text, and the joined string is `f1.string ++ ... ++ fn.string`; the fragments `"A"`,
`"B"`, `"C"` give `"ABC"`. -/
theorem joinedString_concatenates_fragment_texts (s : AttributedString F)
    (fs : List (Fragment F)) :
    s.getJoinedString = String.join (s.getAllFragments.map Fragment.string) ∧
    (appendFragments AttributedString.new fs).getAllFragments =
      fs.filter (fun g => !g.string.isEmpty) ∧
    (appendFragments AttributedString.new fs).getJoinedString =
      String.join (fs.map Fragment.string) ∧
    (appendFragments AttributedString.new
      [refFragment "A" 14336 0 0, refFragment "B" 14336 0 0,
        refFragment "C" 14336 0 0]).getJoinedString = "ABC" := by
  have hnew : appendFragments AttributedString.new fs =
      ⟨[⟨fs.filter (fun g => !g.string.isEmpty), false⟩], false⟩ := by
    have h := appendFragments_single_shard fs ([] : List (Fragment F))
    simpa [AttributedString.new, Shard.new] using h
  refine ⟨getJoinedString_eq_join_fragments s, ?_, ?_, by decide⟩
  · rw [hnew, getAllFragments_eq_flatten]
    simp
  · rw [getJoinedString_eq_join_fragments, hnew, getAllFragments_eq_flatten]
    simp only [List.map_cons, List.map_nil, List.flatten_cons, List.flatten_nil,
      List.append_nil]
    exact string_join_filter_nonempty fs

end Joined

/-! ## Attachments counted -/

section Counting

variable {F : Type}

theorem foldl_count_attachments (l : List (Fragment F)) (count : Int) :
    l.foldl (fun count fragment => if fragment.isAttachment then count + 1 else count) count =
      count + ((l.filter Fragment.isAttachment).length : Int) := by
  induction l generalizing count with
  | nil => simp
  | cons f l ih =>
    cases h : f.isAttachment
    · simp [List.foldl_cons, h, ih, List.filter_cons]
    · simp only [List.foldl_cons, h, if_true, ih, List.filter_cons, List.length_cons]
      push_cast
      ring

theorem shard_countAttachments_eq (x : Shard F) :
    x.countAttachments = ((x.fragments_.filter Fragment.isAttachment).length : Int) := by
  unfold Shard.countAttachments
  rw [foldl_count_attachments, Int.zero_add]

theorem foldl_countAllAttachments (l : List (Shard F)) (count : Int) :
    l.foldl (fun count shard => count + shard.countAttachments) count =
      count +
        (((l.map Shard.fragments_).flatten.filter Fragment.isAttachment).length : Int) := by
  induction l generalizing count with
  | nil => simp
  | cons x l ih =>
    rw [List.foldl_cons, ih, shard_countAttachments_eq, List.map_cons, List.flatten_cons,
      List.filter_append, List.length_append]
    push_cast
    omega

/-- C19. `countAllAttachments()` is the number of elements of `getAllFragments()` for which
`isAttachment()` holds, that is, whose string is exactly U+FFFC. In a string with the three
fragments U+FFFC, `"a"` followed by U+FFFC, and U+FFFC twice, it counts one. -/
theorem countAllAttachments_counts_exact_marker (s : AttributedString F) :
    s.countAllAttachments =
      ((s.getAllFragments.filter Fragment.isAttachment).length : Int) ∧
    (∀ f : Fragment F, f.isAttachment = true ↔ f.string = "\uFFFC") ∧
    (refString [refFragment "\uFFFC" 14336 0 0, refFragment "a\uFFFC" 14336 0 0,
      refFragment "\uFFFC\uFFFC" 14336 0 0]).countAllAttachments = 1 := by
  refine ⟨?_, fun f => ?_, by decide⟩
  · unfold AttributedString.countAllAttachments
    rw [foldl_countAllAttachments, getAllFragments_eq_flatten, Int.zero_add]
  · simp [Fragment.isAttachment, Fragment.AttachmentCharacter]

end Counting

/-! ## No empty fragment -/

section NoEmpty

variable {F : Type}

theorem shard_all_append (l : List (Fragment F)) (f : Fragment F)
    (hl : l.all (fun g => !g.string.isEmpty) = true) (hf : f.string.isEmpty = false) :
    (l ++ [f]).all (fun g => !g.string.isEmpty) = true := by
  simp only [List.all_append, hl, List.all_cons, hf, List.all_nil]
  rfl

theorem shard_appendFragment_keeps (x : Shard F) (f : Fragment F)
    (hx : x.fragments_.all (fun g => !g.string.isEmpty) = true) :
    (x.appendFragment f).after.fragments_.all (fun g => !g.string.isEmpty) = true := by
  unfold Shard.appendFragment Outcome.after
  cases hs : x.sealed_
  · cases hf : f.string.isEmpty
    · simpa [Sealable.ensureUnsealed, hf] using shard_all_append _ f hx hf
    · simpa [Sealable.ensureUnsealed, hf] using hx
  · simpa [Sealable.ensureUnsealed] using hx

theorem shard_prependFragment_keeps (x : Shard F) (f : Fragment F)
    (hx : x.fragments_.all (fun g => !g.string.isEmpty) = true) :
    (x.prependFragment f).after.fragments_.all (fun g => !g.string.isEmpty) = true := by
  unfold Shard.prependFragment Outcome.after
  cases hs : x.sealed_
  · cases hf : f.string.isEmpty
    · have : (f :: x.fragments_).all (fun g => !g.string.isEmpty) = true := by
        simp only [List.all_cons, hf, hx]
        rfl
      simpa [Sealable.ensureUnsealed, hf] using this
    · simpa [Sealable.ensureUnsealed, hf] using hx
  · simpa [Sealable.ensureUnsealed] using hx

theorem built_shard_has_no_empty_fragment (x : Shard F) (h : Shard.Built x) :
    x.fragments_.all (fun g => !g.string.isEmpty) = true := by
  induction h with
  | new => rfl
  | appendFragment x f _ ih => exact shard_appendFragment_keeps x f ih
  | prependFragment x f _ ih => exact shard_prependFragment_keeps x f ih

theorem noEmptyFragment_cons (x : Shard F) (rest : List (Shard F)) (b : Bool) :
    noEmptyFragment ⟨x :: rest, b⟩ =
      (x.fragments_.all (fun g => !g.string.isEmpty) && noEmptyFragment ⟨rest, b⟩) := by
  simp [noEmptyFragment]

theorem noEmptyFragment_shards (s : AttributedString F) :
    noEmptyFragment s =
      s.shards_.all fun shard => shard.fragments_.all fun fragment => !fragment.string.isEmpty :=
  rfl

theorem string_appendFragment_keeps (s : AttributedString F) (f : Fragment F)
    (hs : noEmptyFragment s = true) : noEmptyFragment (s.appendFragment f).after = true := by
  unfold AttributedString.appendFragment Outcome.after
  cases hsealed : s.sealed_
  · rcases hsh : s.shards_ with _ | ⟨root, rest⟩
    · simpa [Sealable.ensureUnsealed] using hs
    · have hroot := shard_appendFragment_keeps root f
      have hs' := hs
      rw [noEmptyFragment_shards, hsh, List.all_cons, Bool.and_eq_true] at hs'
      have h' := hroot hs'.1
      simp only [Sealable.ensureUnsealed, Bool.false_eq_true, if_false]
      rcases hr : root.appendFragment f with ⟨_ | _, root'⟩
      · exact hs
      · rw [hr] at h'
        rw [noEmptyFragment_shards]
        simp only [List.all_cons, Bool.and_eq_true]
        exact ⟨h', hs'.2⟩
  · simpa [Sealable.ensureUnsealed] using hs

theorem string_prependFragment_keeps (s : AttributedString F) (f : Fragment F)
    (hs : noEmptyFragment s = true) : noEmptyFragment (s.prependFragment f).after = true := by
  unfold AttributedString.prependFragment Outcome.after
  cases hsealed : s.sealed_
  · rcases hsh : s.shards_ with _ | ⟨root, rest⟩
    · simpa [Sealable.ensureUnsealed] using hs
    · have hroot := shard_prependFragment_keeps root f
      have hs' := hs
      rw [noEmptyFragment_shards, hsh, List.all_cons, Bool.and_eq_true] at hs'
      have h' := hroot hs'.1
      simp only [Sealable.ensureUnsealed, Bool.false_eq_true, if_false]
      rcases hr : root.prependFragment f with ⟨_ | _, root'⟩
      · exact hs
      · rw [hr] at h'
        rw [noEmptyFragment_shards]
        simp only [List.all_cons, Bool.and_eq_true]
        exact ⟨h', hs'.2⟩
  · simpa [Sealable.ensureUnsealed] using hs

theorem string_appendShard_keeps (s : AttributedString F) (x : Shard F)
    (hs : noEmptyFragment s = true)
    (hx : x.fragments_.all (fun g => !g.string.isEmpty) = true) :
    noEmptyFragment (s.appendShard x).after = true := by
  unfold AttributedString.appendShard Outcome.after
  cases hsealed : s.sealed_
  · cases he : x.isEmpty
    · simp only [Sealable.ensureUnsealed]
      rw [noEmptyFragment_shards] at hs ⊢
      simp only [Bool.false_eq_true, if_false, List.all_append, List.all_cons, List.all_nil,
        Bool.and_true, Bool.and_eq_true]
      exact ⟨hs, hx⟩
    · simpa [Sealable.ensureUnsealed] using hs
  · simpa [Sealable.ensureUnsealed] using hs

theorem string_prependShard_keeps (s : AttributedString F) (x : Shard F)
    (hs : noEmptyFragment s = true)
    (hx : x.fragments_.all (fun g => !g.string.isEmpty) = true) :
    noEmptyFragment (s.prependShard x).after = true := by
  unfold AttributedString.prependShard Outcome.after
  cases hsealed : s.sealed_
  · cases he : x.isEmpty
    · simp only [Sealable.ensureUnsealed]
      rw [noEmptyFragment_shards] at hs ⊢
      simp only [Bool.false_eq_true, if_false, List.all_cons, Bool.and_eq_true]
      exact ⟨hx, hs⟩
    · simpa [Sealable.ensureUnsealed] using hs
  · simpa [Sealable.ensureUnsealed] using hs

theorem string_appendAttributedString_keeps (s o : AttributedString F)
    (hs : noEmptyFragment s = true) (ho : noEmptyFragment o = true) :
    noEmptyFragment (s.appendAttributedString o).after = true := by
  unfold AttributedString.appendAttributedString Outcome.after
  cases hsealed : s.sealed_
  · simp only [Sealable.ensureUnsealed]
    rw [noEmptyFragment_shards] at hs ho ⊢
    simp only [Bool.false_eq_true, if_false, List.all_append, Bool.and_eq_true]
    exact ⟨hs, ho⟩
  · simpa [Sealable.ensureUnsealed] using hs

theorem string_prependAttributedString_keeps (s o : AttributedString F)
    (hs : noEmptyFragment s = true) (ho : noEmptyFragment o = true) :
    noEmptyFragment (s.prependAttributedString o).after = true := by
  unfold AttributedString.prependAttributedString Outcome.after
  cases hsealed : s.sealed_
  · simp only [Sealable.ensureUnsealed]
    rw [noEmptyFragment_shards] at hs ho ⊢
    simp only [Bool.false_eq_true, if_false, List.all_append, Bool.and_eq_true]
    exact ⟨ho, hs⟩
  · simpa [Sealable.ensureUnsealed] using hs

/-- C20. No empty fragment ever appears in a shard: in every attributed string reachable from a
new one by `appendFragment`, `prependFragment`, `appendShard`, `prependShard`,
`appendAttributedString` and `prependAttributedString`, with shard arguments built from new
shards by `Shard::appendFragment` and `Shard::prependFragment` and string arguments reachable in
the same way, every fragment of every shard has a non-empty string. -/
theorem built_string_has_no_empty_fragment (s : AttributedString F)
    (h : AttributedString.Built s) :
    noEmptyFragment s = true ∧
    ∀ x ∈ s.shards_, ∀ f ∈ x.fragments_, f.string ≠ "" := by
  have key : noEmptyFragment s = true := by
    induction h with
    | new => rfl
    | appendFragment s f _ ih => exact string_appendFragment_keeps s f ih
    | prependFragment s f _ ih => exact string_prependFragment_keeps s f ih
    | appendShard s x _ hx ih =>
      exact string_appendShard_keeps s x ih (built_shard_has_no_empty_fragment x hx)
    | prependShard s x _ hx ih =>
      exact string_prependShard_keeps s x ih (built_shard_has_no_empty_fragment x hx)
    | appendAttributedString s o _ _ ihs iho =>
      exact string_appendAttributedString_keeps s o ihs iho
    | prependAttributedString s o _ _ ihs iho =>
      exact string_prependAttributedString_keeps s o ihs iho
  refine ⟨key, fun x hx f hf hempty => ?_⟩
  rw [noEmptyFragment_shards, List.all_eq_true] at key
  have hx' := key x hx
  rw [List.all_eq_true] at hx'
  have hf' := hx' f hf
  rw [(String.isEmpty_iff f.string).2 hempty] at hf'
  cases hf'

end NoEmpty

/-- C20 at the string reached from a new one by `appendFragment("")`, `appendFragment("a")` and
`prependShard` of the shard built by `Shard::prependFragment("b")`. -/
theorem built_string_has_no_empty_fragment_witness :
    noEmptyFragment
      (((((AttributedString.new.appendFragment (refFragment "" 14336 0 0)).after).appendFragment
        (refFragment "a" 14336 0 0)).after).prependShard
          ((Shard.new.prependFragment (refFragment "b" 14336 0 0)).after)).after = true :=
  (built_string_has_no_empty_fragment _
    (AttributedString.Built.prependShard _ _
      (AttributedString.Built.appendFragment _ _
        (AttributedString.Built.appendFragment _ _ AttributedString.Built.new))
      (Shard.Built.prependFragment _ _ Shard.Built.new))).1

/-! ## The measure cache: hit and miss -/

section Cache

variable {F M : Type} (U : Prims F)

/-- A key that is equal to the key of a fresh entry and has the same hash is answered from the
cache: after a miss on `k₁` has stored `measure k₁`, `get` with `k₂` returns that measurement,
leaves the cache as it is and does not call `measure`. -/
theorem cache_hit_of_equal_key_and_hash (measure : TextMeasureCacheKey F → M)
    (cache : TextMeasureCache F M) (k₁ k₂ : TextMeasureCacheKey F)
    (hmiss : TextMeasureCache.lookup U cache k₁ = none)
    (heq : TextMeasureCacheKey.beq U k₂ k₁ = true)
    (hhash : TextMeasureCacheKey.hash U k₂ = TextMeasureCacheKey.hash U k₁) :
    (TextMeasureCache.get U measure (TextMeasureCache.get U measure cache k₁).cache k₂).value =
        measure k₁ ∧
      (TextMeasureCache.get U measure
        (TextMeasureCache.get U measure cache k₁).cache k₂).measureCalls = 0 := by
  have hfill : (TextMeasureCache.get U measure cache k₁).cache =
      (({ fingerprint := TextMeasureCacheKey.hash U k₁, key := k₁,
          measurement := measure k₁ } : CacheEntry F M) :: cache).take
        kSimpleThreadSafeCacheSizeCap := by
    simp [TextMeasureCache.get, hmiss]
  have hlook : TextMeasureCache.lookup U (TextMeasureCache.get U measure cache k₁).cache k₂ =
      some (measure k₁) := by
    rw [hfill]
    simp [TextMeasureCache.lookup, kSimpleThreadSafeCacheSizeCap, List.take_succ_cons,
      List.find?_cons, heq, hhash]
  generalize (TextMeasureCache.get U measure cache k₁).cache = filled at hlook
  simp only [TextMeasureCache.get, hlook, and_self]

end Cache

/-- C21, evaluated at a failing input. A miss on the key with `fontSize` 14.0 fills the empty
cache; the key with `fontSize` 14.0009765625, same paragraph attributes and width, is equal to
it under `operator==`, and `get` with it calls the measure function again and returns another
measurement: the two keys have different hashes, so the lookup does not reach the entry. -/
theorem equal_key_misses_the_cache :
    TextMeasureCacheKey.beq refPrims
        (refKey (refString [refFragment "a" 14337 0 0]) 102400 0)
        (refKey (refString [refFragment "a" 14336 0 0]) 102400 0) = true ∧
      (TextMeasureCache.get refPrims refMeasure []
        (refKey (refString [refFragment "a" 14336 0 0]) 102400 0)).measureCalls = 1 ∧
      (TextMeasureCache.get refPrims refMeasure
        (TextMeasureCache.get refPrims refMeasure []
          (refKey (refString [refFragment "a" 14336 0 0]) 102400 0)).cache
        (refKey (refString [refFragment "a" 14337 0 0]) 102400 0)).measureCalls = 1 ∧
      (TextMeasureCache.get refPrims refMeasure
        (TextMeasureCache.get refPrims refMeasure []
          (refKey (refString [refFragment "a" 14336 0 0]) 102400 0)).cache
        (refKey (refString [refFragment "a" 14337 0 0]) 102400 0)).value ≠
      (TextMeasureCache.get refPrims refMeasure []
        (refKey (refString [refFragment "a" 14336 0 0]) 102400 0)).value := by
  decide

/-- The scenario of the spec: after the key with `foregroundColor` 0 has been measured, the key
that differs in `foregroundColor` only is answered from the cache without a call of the measure
function, and the key with `fontSize` 16 is measured. -/
theorem cache_scenario_of_the_spec :
    (TextMeasureCache.get refPrims refMeasure
        (TextMeasureCache.get refPrims refMeasure []
          (refKey (refString [refFragment "a" 14336 0 0]) 102400 0)).cache
        (refKey (refString [refFragment "a" 14336 255 0]) 102400 0)).measureCalls = 0 ∧
      (TextMeasureCache.get refPrims refMeasure
        (TextMeasureCache.get refPrims refMeasure []
          (refKey (refString [refFragment "a" 14336 0 0]) 102400 0)).cache
        (refKey (refString [refFragment "a" 14336 255 0]) 102400 0)).value =
      (TextMeasureCache.get refPrims refMeasure []
        (refKey (refString [refFragment "a" 14336 0 0]) 102400 0)).value ∧
      (TextMeasureCache.get refPrims refMeasure
        (TextMeasureCache.get refPrims refMeasure []
          (refKey (refString [refFragment "a" 14336 0 0]) 102400 0)).cache
        (refKey (refString [refFragment "a" 16384 0 0]) 102400 0)).measureCalls = 1 := by
  decide

/-! ## Where a fragment is inserted -/

/-- On an unsealed string whose first shard is unsealed, a fragment with non-empty text is
appended to the first shard, and every other shard is left as it was. -/
theorem appendFragment_goes_to_first_shard {F : Type} (s : AttributedString F)
    (f : Fragment F) (root : Shard F) (rest : List (Shard F))
    (hs : s.sealed_ = false) (hshards : s.shards_ = root :: rest)
    (hroot : root.sealed_ = false) (hf : f.string ≠ "") :
    (s.appendFragment f).after =
        { s with shards_ := { root with fragments_ := root.fragments_ ++ [f] } :: rest } ∧
      (s.prependFragment f).after =
        { s with shards_ := { root with fragments_ := f :: root.fragments_ } :: rest } := by
  constructor
  · simp [AttributedString.appendFragment, Sealable.ensureUnsealed, hs, hshards,
      Shard.appendFragment_of_ne root f hroot hf]
  · simp [AttributedString.prependFragment, Sealable.ensureUnsealed, hs, hshards,
      Shard.prependFragment_of_ne root f hroot hf]

/-- C22, evaluated at a failing input. On the string with the two shards `["a"]` and `["b"]`,
`appendFragment("c")` leaves the shards `["a", "c"]` and `["b"]`: the fragment is the last one
of the first shard, and the last shard is as it was, not `["b", "c"]`. -/
theorem appendFragment_misses_the_last_shard :
    (AttributedString.appendFragment
        ⟨[⟨[refFragment "a" 14336 0 0], false⟩, ⟨[refFragment "b" 14336 0 0], false⟩], false⟩
        (refFragment "c" 14336 0 0)) =
      (.ok ⟨0, 1⟩,
        ⟨[⟨[refFragment "a" 14336 0 0, refFragment "c" 14336 0 0], false⟩,
          ⟨[refFragment "b" 14336 0 0], false⟩], false⟩) ∧
    (AttributedString.appendFragment
        ⟨[⟨[refFragment "a" 14336 0 0], false⟩, ⟨[refFragment "b" 14336 0 0], false⟩], false⟩
        (refFragment "c" 14336 0 0)).after ≠
      ⟨[⟨[refFragment "a" 14336 0 0], false⟩,
        ⟨[refFragment "b" 14336 0 0, refFragment "c" 14336 0 0], false⟩], false⟩ := by
  decide

/-! ## Comparisons that leave the anchor out -/

section Content

variable {F : Type} (U : Prims F)

theorem equalSizeAndAll_iff_of_iff {α : Type} (p : α → α → Bool) (R : α → α → Prop)
    (h : ∀ x y, p x y = true ↔ R x y) (l r : List α) :
    equalSizeAndAll p l r = true ↔ List.Forall₂ R l r := by
  rw [equalSizeAndAll_iff]
  constructor
  · intro hl
    exact hl.imp (fun {x y} hxy => (h x y).1 hxy)
  · intro hl
    exact hl.imp (fun {x y} hxy => (h x y).2 hxy)

theorem equalSizeAndAll_map {α β : Type} (p : β → β → Bool) (g h : α → β) (l r : List α) :
    equalSizeAndAll p (l.map g) (r.map h) = equalSizeAndAll (fun x y => p (g x) (h y)) l r := by
  induction l generalizing r with
  | nil =>
    cases r with
    | nil => simp [equalSizeAndAll_nil]
    | cons b r => simp [equalSizeAndAll_nil_cons]
  | cons a l ih =>
    cases r with
    | nil => simp [equalSizeAndAll_cons_nil]
    | cons b r => simp [equalSizeAndAll_cons, ih]

theorem fragment_compare_iff (l r : Fragment F) :
    (!(!(TextAttributes.beq U l.textAttributes r.textAttributes) || l.string != r.string)) = true ↔
      TextAttributes.beq U l.textAttributes r.textAttributes = true ∧ l.string = r.string := by
  cases h : TextAttributes.beq U l.textAttributes r.textAttributes <;> simp

theorem fragment_isContentEqual_iff (l r : Fragment F) :
    Fragment.isContentEqual U l r = true ↔
      l.string = r.string ∧ TextAttributes.beq U l.textAttributes r.textAttributes = true := by
  simp [Fragment.isContentEqual]

/-- C23, amended. `compareTextAttributesWithoutFrame` is true exactly when the two strings have
the same number of shards, corresponding shards have the same number of fragments, and
corresponding fragments have equal `textAttributes` and equal text; the `parentShadowView`s of
the fragments play no part. -/
theorem compareTextAttributesWithoutFrame_reads_attributes_and_text (a b : AttributedString F) :
    (AttributedString.compareTextAttributesWithoutFrame U a b = true ↔
      List.Forall₂
        (fun x y : Shard F =>
          List.Forall₂
            (fun l r : Fragment F =>
              TextAttributes.beq U l.textAttributes r.textAttributes = true ∧
                l.string = r.string)
            x.fragments_ y.fragments_)
        a.shards_ b.shards_) ∧
    ∀ g h : ShadowView → ShadowView,
      AttributedString.compareTextAttributesWithoutFrame U
          (mapParentShadowView g a) (mapParentShadowView h b) =
        AttributedString.compareTextAttributesWithoutFrame U a b := by
  constructor
  · unfold AttributedString.compareTextAttributesWithoutFrame
    apply equalSizeAndAll_iff_of_iff
    intro x y
    unfold Shard.compareTextAttributesWithoutFrame
    apply equalSizeAndAll_iff_of_iff
    exact fragment_compare_iff U
  · intro g h
    simp only [AttributedString.compareTextAttributesWithoutFrame, mapParentShadowView,
      equalSizeAndAll_map, Shard.compareTextAttributesWithoutFrame]
    rfl

/-- C24. `isContentEqual` is true exactly when the two strings have the same number of shards,
corresponding shards have the same number of fragments, and corresponding fragments have equal
text and equal `textAttributes`; the `parentShadowView`s of the fragments play no part; and
`a == b` implies `a.isContentEqual(b)`. -/
theorem isContentEqual_reads_text_and_attributes (a b : AttributedString F) :
    (AttributedString.isContentEqual U a b = true ↔
      List.Forall₂
        (fun x y : Shard F =>
          List.Forall₂
            (fun l r : Fragment F =>
              l.string = r.string ∧
                TextAttributes.beq U l.textAttributes r.textAttributes = true)
            x.fragments_ y.fragments_)
        a.shards_ b.shards_) ∧
    (∀ g h : ShadowView → ShadowView,
      AttributedString.isContentEqual U (mapParentShadowView g a) (mapParentShadowView h b) =
        AttributedString.isContentEqual U a b) ∧
    (AttributedString.beq U a b = true → AttributedString.isContentEqual U a b = true) := by
  refine ⟨?_, ?_, ?_⟩
  · unfold AttributedString.isContentEqual
    apply equalSizeAndAll_iff_of_iff
    intro x y
    unfold Shard.isContentEqual
    apply equalSizeAndAll_iff_of_iff
    exact fragment_isContentEqual_iff U
  · intro g h
    simp only [AttributedString.isContentEqual, mapParentShadowView, equalSizeAndAll_map,
      Shard.isContentEqual, Fragment.isContentEqual]
    rfl
  · intro hab
    refine equalSizeAndAll_mono _ _ (fun x y hxy => ?_) _ _ hab
    refine equalSizeAndAll_mono _ _ (fun l r hlr => ?_) _ _ hxy
    simp only [Fragment.beq, Bool.and_eq_true, beq_iff_eq] at hlr
    simp only [Fragment.isContentEqual, Bool.and_eq_true, beq_iff_eq]
    exact ⟨hlr.1.1.1, hlr.1.1.2⟩

end Content

/-- C23 as stated fails. The strings `["a"]` and `["b"]` have one shard with one fragment each,
and the two fragments have equal `textAttributes`; `compareTextAttributesWithoutFrame` is false
for them, because the loop also compares the text. -/
theorem compareTextAttributesWithoutFrame_depends_on_text :
    TextAttributes.beq refPrims (refFragment "a" 14336 0 0).textAttributes
        (refFragment "b" 14336 0 0).textAttributes = true ∧
      AttributedString.compareTextAttributesWithoutFrame refPrims
        (refString [refFragment "a" 14336 0 0]) (refString [refFragment "b" 14336 0 0])
          = false := by
  decide

/-- C24 at two strings that are equal under `operator==`: the `fontSize` values differ by less
than the tolerance. -/
theorem isContentEqual_reads_text_and_attributes_witness :
    AttributedString.isContentEqual refPrims
      (refString [refFragment "a" 14336 0 0]) (refString [refFragment "a" 14337 0 0]) = true :=
  (isContentEqual_reads_text_and_attributes refPrims _ _).2.2 (by decide)

/-! ## The shard sequence is never empty -/

section NonEmpty

variable {F : Type}

theorem appendFragment_shards_length (s : AttributedString F) (f : Fragment F) :
    (s.appendFragment f).after.shards_.length = s.shards_.length := by
  unfold AttributedString.appendFragment Outcome.after
  cases hsealed : s.sealed_
  · rcases hsh : s.shards_ with _ | ⟨root, rest⟩
    · simp [Sealable.ensureUnsealed, hsh]
    · simp only [Sealable.ensureUnsealed, Bool.false_eq_true, if_false]
      rcases hr : root.appendFragment f with ⟨_ | _, root'⟩
      · simp [hsh]
      · simp
  · simp [Sealable.ensureUnsealed]

theorem prependFragment_shards_length (s : AttributedString F) (f : Fragment F) :
    (s.prependFragment f).after.shards_.length = s.shards_.length := by
  unfold AttributedString.prependFragment Outcome.after
  cases hsealed : s.sealed_
  · rcases hsh : s.shards_ with _ | ⟨root, rest⟩
    · simp [Sealable.ensureUnsealed, hsh]
    · simp only [Sealable.ensureUnsealed, Bool.false_eq_true, if_false]
      rcases hr : root.prependFragment f with ⟨_ | _, root'⟩
      · simp [hsh]
      · simp
  · simp [Sealable.ensureUnsealed]

theorem appendShard_shards_length (s : AttributedString F) (x : Shard F) :
    s.shards_.length ≤ (s.appendShard x).after.shards_.length := by
  unfold AttributedString.appendShard Outcome.after
  cases hsealed : s.sealed_ <;> cases he : x.isEmpty <;> simp [Sealable.ensureUnsealed]

theorem prependShard_shards_length (s : AttributedString F) (x : Shard F) :
    s.shards_.length ≤ (s.prependShard x).after.shards_.length := by
  unfold AttributedString.prependShard Outcome.after
  cases hsealed : s.sealed_ <;> cases he : x.isEmpty <;> simp [Sealable.ensureUnsealed]

theorem appendAttributedString_shards_length (s o : AttributedString F) :
    s.shards_.length ≤ (s.appendAttributedString o).after.shards_.length := by
  unfold AttributedString.appendAttributedString Outcome.after
  cases hsealed : s.sealed_ <;> simp [Sealable.ensureUnsealed]

theorem prependAttributedString_shards_length (s o : AttributedString F) :
    s.shards_.length ≤ (s.prependAttributedString o).after.shards_.length := by
  unfold AttributedString.prependAttributedString Outcome.after
  cases hsealed : s.sealed_ <;> simp [Sealable.ensureUnsealed]

theorem built_string_has_a_shard (s : AttributedString F) (h : AttributedString.Built s) :
    1 ≤ s.shards_.length := by
  induction h with
  | new => simp [AttributedString.new]
  | appendFragment s f _ ih => rw [appendFragment_shards_length]; exact ih
  | prependFragment s f _ ih => rw [prependFragment_shards_length]; exact ih
  | appendShard s x _ _ ih => exact Nat.le_trans ih (appendShard_shards_length s x)
  | prependShard s x _ _ ih => exact Nat.le_trans ih (prependShard_shards_length s x)
  | appendAttributedString s o _ _ ih _ =>
    exact Nat.le_trans ih (appendAttributedString_shards_length s o)
  | prependAttributedString s o _ _ ih _ =>
    exact Nat.le_trans ih (prependAttributedString_shards_length s o)

theorem front_defined_of_shard (s : AttributedString F) (f : Fragment F)
    (h : 1 ≤ s.shards_.length) :
    (s.appendFragment f).1 ≠ .error .frontOfEmptyVector ∧
      (s.prependFragment f).1 ≠ .error .frontOfEmptyVector := by
  rcases hsh : s.shards_ with _ | ⟨root, rest⟩
  · rw [hsh] at h
    simp at h
  · constructor
    · unfold AttributedString.appendFragment Shard.appendFragment
      cases hsealed : s.sealed_ <;> cases hr : root.sealed_ <;>
        cases hf : f.string.isEmpty <;> simp [Sealable.ensureUnsealed, hsh, hr, hf]
    · unfold AttributedString.prependFragment Shard.prependFragment
      cases hsealed : s.sealed_ <;> cases hr : root.sealed_ <;>
        cases hf : f.string.isEmpty <;> simp [Sealable.ensureUnsealed, hsh, hr, hf]

/-- C25. The shard sequence is never empty. A new `AttributedString` has exactly one shard,
which has no fragments; none of the six mutation operations lowers the number of shards; so
every string reachable from a new one has at least one shard, `shards_.front()` is defined in
`appendFragment` and `prependFragment`, and `isEmpty()` returns false, also for the new string,
which holds no fragment. -/
theorem shard_sequence_never_empty (s o : AttributedString F) (x : Shard F) (f : Fragment F) :
    ((AttributedString.new : AttributedString F).shards_ = [⟨[], false⟩] ∧
      (AttributedString.new : AttributedString F).getAllFragments = [] ∧
      (AttributedString.new : AttributedString F).isEmpty = false) ∧
    (s.shards_.length ≤ (s.appendShard x).after.shards_.length ∧
      s.shards_.length ≤ (s.prependShard x).after.shards_.length ∧
      s.shards_.length ≤ (s.appendFragment f).after.shards_.length ∧
      s.shards_.length ≤ (s.prependFragment f).after.shards_.length ∧
      s.shards_.length ≤ (s.appendAttributedString o).after.shards_.length ∧
      s.shards_.length ≤ (s.prependAttributedString o).after.shards_.length) ∧
    (AttributedString.Built s →
      1 ≤ s.shards_.length ∧ s.isEmpty = false ∧
      (s.appendFragment f).1 ≠ .error .frontOfEmptyVector ∧
      (s.prependFragment f).1 ≠ .error .frontOfEmptyVector) := by
  refine ⟨⟨rfl, rfl, rfl⟩, ⟨appendShard_shards_length s x, prependShard_shards_length s x,
    Nat.le_of_eq (appendFragment_shards_length s f).symm,
    Nat.le_of_eq (prependFragment_shards_length s f).symm,
    appendAttributedString_shards_length s o, prependAttributedString_shards_length s o⟩,
    fun hb => ?_⟩
  have hlen := built_string_has_a_shard s hb
  refine ⟨hlen, ?_, front_defined_of_shard s f hlen⟩
  rcases hsh : s.shards_ with _ | ⟨root, rest⟩
  · rw [hsh] at hlen
    simp at hlen
  · simp [AttributedString.isEmpty, hsh]

end NonEmpty

/-- C25 at the string reached from a new one by `appendFragment("")`: it holds no fragment, has
one shard, and `isEmpty()` is false. -/
theorem shard_sequence_never_empty_witness :
    1 ≤ ((AttributedString.new : AttributedString RefFloat).appendFragment
        (refFragment "" 14336 0 0)).after.shards_.length ∧
      ((AttributedString.new : AttributedString RefFloat).appendFragment
        (refFragment "" 14336 0 0)).after.isEmpty = false :=
  have h := (shard_sequence_never_empty
    ((AttributedString.new : AttributedString RefFloat).appendFragment
      (refFragment "" 14336 0 0)).after AttributedString.new Shard.new
    (refFragment "" 14336 0 0)).2.2
    (AttributedString.Built.appendFragment _ _ AttributedString.Built.new)
  ⟨h.1, h.2.1⟩

/-! ## The range of the returned handle -/

/-- C26, evaluated at a failing input. On a new `AttributedString`, whose only shard has no
fragments, `appendFragment` with empty text returns the handle `{0, 2 ^ 64 - 1}` and
`prependFragment` with empty text returns `{0, 0}`, while shard 0 still has no fragments:
neither `fragmentIndex` is below the number of fragments, and `getFragment` finds nothing at
either handle. -/
theorem handle_out_of_range_for_empty_text :
    (AttributedString.new : AttributedString RefFloat).appendFragment
        (refFragment "" 14336 0 0) =
      (.ok ⟨0, 18446744073709551615⟩, AttributedString.new) ∧
    (AttributedString.new : AttributedString RefFloat).prependFragment
        (refFragment "" 14336 0 0) =
      (.ok ⟨0, 0⟩, AttributedString.new) ∧
    ((AttributedString.new : AttributedString RefFloat).shards_.map
      fun shard => shard.fragments_.length) = [0] ∧
    (AttributedString.new : AttributedString RefFloat).getFragment
      ⟨0, 18446744073709551615⟩ = none ∧
    (AttributedString.new : AttributedString RefFloat).getFragment ⟨0, 0⟩ = none := by
  decide

/-- The handle is in range when something is there to point at: on an unsealed string whose
first shard `root` is unsealed and holds fewer than `2 ^ 64` fragments, and when the text is
not empty or `root` has a fragment, both returned handles index a fragment after the call. -/
theorem handle_in_range_of_nonempty {F : Type} (s : AttributedString F) (f : Fragment F)
    (root : Shard F) (rest : List (Shard F))
    (hs : s.sealed_ = false) (hshards : s.shards_ = root :: rest)
    (hroot : root.sealed_ = false) (hsize : root.fragments_.length < 2 ^ 64)
    (hsome : f.string ≠ "" ∨ root.fragments_ ≠ []) :
    (∃ h g, (s.appendFragment f).1 = .ok h ∧
      (s.appendFragment f).after.getFragment h = some g) ∧
    (∃ h g, (s.prependFragment f).1 = .ok h ∧
      (s.prependFragment f).after.getFragment h = some g) := by
  by_cases hf : f.string = ""
  · have hne : root.fragments_ ≠ [] := by
      rcases hsome with h | h
      · exact absurd hf h
      · exact h
    have hpos : 0 < root.fragments_.length := List.length_pos.2 hne
    have hlast : root.fragments_.length - 1 < root.fragments_.length := by omega
    have hidx : (root.fragments_.length + (2 ^ 64 - 1)) % 2 ^ 64 =
        root.fragments_.length - 1 := by omega
    constructor
    · refine ⟨⟨0, root.fragments_.length - 1⟩,
        root.fragments_.get ⟨root.fragments_.length - 1, hlast⟩, ?_, ?_⟩
      · simp only [AttributedString.appendFragment, Sealable.ensureUnsealed, hs, hshards,
          Shard.appendFragment_of_empty root f hroot hf, Bool.false_eq_true, if_false, hidx]
      · simp [AttributedString.appendFragment, Sealable.ensureUnsealed, hs, hshards,
          Shard.appendFragment_of_empty root f hroot hf, AttributedString.getFragment,
          Outcome.after]
    · refine ⟨⟨0, 0⟩, root.fragments_.get ⟨0, hpos⟩, ?_, ?_⟩
      · simp [AttributedString.prependFragment, Sealable.ensureUnsealed, hs, hshards,
          Shard.prependFragment_of_empty root f hroot hf]
      · simp [AttributedString.prependFragment, Sealable.ensureUnsealed, hs, hshards,
          Shard.prependFragment_of_empty root f hroot hf, AttributedString.getFragment,
          Outcome.after]
  · constructor
    · refine ⟨⟨0, root.fragments_.length⟩, f, ?_, ?_⟩
      · simp [AttributedString.appendFragment, Sealable.ensureUnsealed, hs, hshards,
          Shard.appendFragment_of_ne root f hroot hf]
        omega
      · simp [AttributedString.appendFragment, Sealable.ensureUnsealed, hs, hshards,
          Shard.appendFragment_of_ne root f hroot hf, AttributedString.getFragment]
    · refine ⟨⟨0, 0⟩, f, ?_, ?_⟩
      · simp [AttributedString.prependFragment, Sealable.ensureUnsealed, hs, hshards,
          Shard.prependFragment_of_ne root f hroot hf]
      · simp [AttributedString.prependFragment, Sealable.ensureUnsealed, hs, hshards,
          Shard.prependFragment_of_ne root f hroot hf, AttributedString.getFragment]

/-! ## Equivalent strings carry the same text -/

section SameText

variable {F : Type} (U : Prims F)

theorem map_eq_of_equalSizeAndAll {α β : Type} (p : α → α → Bool) (g : α → β)
    (hp : ∀ x y, p x y = true → g x = g y) (l r : List α)
    (h : equalSizeAndAll p l r = true) : l.map g = r.map g := by
  induction l generalizing r with
  | nil =>
    cases r with
    | nil => rfl
    | cons b r => simp [equalSizeAndAll_nil_cons] at h
  | cons a l ih =>
    cases r with
    | nil => simp [equalSizeAndAll_cons_nil] at h
    | cons b r =>
      rw [equalSizeAndAll_cons, Bool.and_eq_true] at h
      rw [List.map_cons, List.map_cons, hp a b h.1, ih r h.2]

theorem shard_strings_of_equivalent (x y : Shard F)
    (h : areAttributedStringShardsEquivalentLayoutWise U x y = true) :
    x.fragments_.map Fragment.string = y.fragments_.map Fragment.string :=
  map_eq_of_equalSizeAndAll _ Fragment.string
    (fun l r hlr => ((areAttributedStringFragmentsEquivalentLayoutWise_iff U l r).1 hlr).1)
    _ _ h

theorem shard_countAttachments_of_strings (x y : Shard F)
    (h : x.fragments_.map Fragment.string = y.fragments_.map Fragment.string) :
    x.countAttachments = y.countAttachments := by
  have key : ∀ z : Shard F, z.countAttachments =
      (((z.fragments_.map Fragment.string).filter
        (fun t => t == Fragment.AttachmentCharacter)).length : Int) := by
    intro z
    rw [shard_countAttachments_eq, List.filter_map, List.length_map]
    rfl
  rw [key x, key y, h]

/-- C27. Layout-wise equivalent strings carry the same text: they have the same number of
shards and, shard by shard, the same number of fragments, the same joined string and the same
number of attachments. Conversely the shard boundaries count: the strings `["a", "b"]` and
`["a"], ["b"]`, and the strings `["a"]` and `["a"], []`, have the same fragments in the same
order and are not equivalent. -/
theorem layoutWise_equivalent_strings_carry_same_text (a b : AttributedString F)
    (h : areAttributedStringsEquivalentLayoutWise U a b = true) :
    (a.shards_.length = b.shards_.length ∧
      (a.shards_.map fun x => x.fragments_.length) =
        (b.shards_.map fun x => x.fragments_.length) ∧
      a.getJoinedString = b.getJoinedString ∧
      a.countAllAttachments = b.countAllAttachments) ∧
    (AttributedString.getAllFragments
        (⟨[⟨[refFragment "a" 14336 0 0, refFragment "b" 14336 0 0], false⟩], false⟩ :
          AttributedString RefFloat) =
      AttributedString.getAllFragments
        (⟨[⟨[refFragment "a" 14336 0 0], false⟩, ⟨[refFragment "b" 14336 0 0], false⟩],
          false⟩ : AttributedString RefFloat) ∧
      areAttributedStringsEquivalentLayoutWise refPrims
        ⟨[⟨[refFragment "a" 14336 0 0, refFragment "b" 14336 0 0], false⟩], false⟩
        ⟨[⟨[refFragment "a" 14336 0 0], false⟩, ⟨[refFragment "b" 14336 0 0], false⟩],
          false⟩ = false ∧
      AttributedString.getAllFragments
        (⟨[⟨[refFragment "a" 14336 0 0], false⟩], false⟩ : AttributedString RefFloat) =
      AttributedString.getAllFragments
        (⟨[⟨[refFragment "a" 14336 0 0], false⟩, ⟨[], false⟩], false⟩ :
          AttributedString RefFloat) ∧
      areAttributedStringsEquivalentLayoutWise refPrims
        ⟨[⟨[refFragment "a" 14336 0 0], false⟩], false⟩
        ⟨[⟨[refFragment "a" 14336 0 0], false⟩, ⟨[], false⟩], false⟩ = false) := by
  refine ⟨⟨equalSizeAndAll_length _ _ _ h, ?_, ?_, ?_⟩, by decide⟩
  · exact map_eq_of_equalSizeAndAll _ (fun x : Shard F => x.fragments_.length)
      (fun x y hxy => equalSizeAndAll_length _ _ _ hxy) _ _ h
  · rw [getJoinedString_eq_join_shards, getJoinedString_eq_join_shards]
    congr 1
    exact map_eq_of_equalSizeAndAll _ Shard.getString
      (fun x y hxy => by
        rw [shard_getString_eq, shard_getString_eq, shard_strings_of_equivalent U x y hxy])
      _ _ h
  · unfold AttributedString.countAllAttachments
    have hmap : a.shards_.map Shard.countAttachments = b.shards_.map Shard.countAttachments :=
      map_eq_of_equalSizeAndAll _ Shard.countAttachments
        (fun x y hxy =>
          shard_countAttachments_of_strings x y (shard_strings_of_equivalent U x y hxy))
        _ _ h
    have hfold : ∀ l : List (Shard F),
        l.foldl (fun count shard => count + shard.countAttachments) 0 =
          (l.map Shard.countAttachments).foldl (fun count n => count + n) 0 := by
      intro l
      rw [List.foldl_map]
    rw [hfold, hfold, hmap]

end SameText

/-- C27 at two strings with a text fragment and an attachment that differ in `foregroundColor`
and, within the tolerance, in `fontSize`. -/
theorem layoutWise_equivalent_strings_carry_same_text_witness :
    (refString [refFragment "ab" 14336 7 3, refFragment "\uFFFC" 14336 0 5]).getJoinedString =
        (refString [refFragment "ab" 14337 9 3, refFragment "\uFFFC" 14336 4 5]).getJoinedString ∧
      (refString [refFragment "ab" 14336 7 3,
          refFragment "\uFFFC" 14336 0 5]).countAllAttachments =
        (refString [refFragment "ab" 14337 9 3,
          refFragment "\uFFFC" 14336 4 5]).countAllAttachments :=
  have h := (layoutWise_equivalent_strings_carry_same_text refPrims
    (refString [refFragment "ab" 14336 7 3, refFragment "\uFFFC" 14336 0 5])
    (refString [refFragment "ab" 14337 9 3, refFragment "\uFFFC" 14336 4 5]) (by decide)).1
  ⟨h.2.2.1, h.2.2.2⟩

/-! ## The structural hash against full equality -/

/-- C28, evaluated at failing inputs. The strings `"a"` with `fontSize` 14.0 and 14.0009765625
are equal under `AttributedString::operator==`, which compares `fontSize` within a tolerance,
and have different `std::hash` values, which combine the `fontSize` values themselves. So have
two strings whose fragments differ in a member of `parentShadowView` other than `tag` and
`layoutMetrics`: `operator==` reads these two members, the hash the whole view. -/
theorem equal_strings_hash_differently :
    (AttributedString.beq refPrims
        (refString [refFragment "a" 14336 0 0]) (refString [refFragment "a" 14337 0 0]) = true ∧
      AttributedString.hash refPrims (refString [refFragment "a" 14336 0 0]) ≠
        AttributedString.hash refPrims (refString [refFragment "a" 14337 0 0])) ∧
    (AttributedString.beq refPrims
        (refString [{ refFragment "a" 14336 0 0 with
          parentShadowView := { tag := 1, layoutMetrics := 0, others := 0 } }])
        (refString [{ refFragment "a" 14336 0 0 with
          parentShadowView := { tag := 1, layoutMetrics := 0, others := 7 } }]) = true ∧
      AttributedString.hash refPrims
          (refString [{ refFragment "a" 14336 0 0 with
            parentShadowView := { tag := 1, layoutMetrics := 0, others := 0 } }]) ≠
        AttributedString.hash refPrims
          (refString [{ refFragment "a" 14336 0 0 with
            parentShadowView := { tag := 1, layoutMetrics := 0, others := 7 } }])) := by
  decide

/-! ## When the structural hash agrees with full equality -/

section StructuralHash

variable {F : Type} (U : Prims F)

theorem fragmentAttributes_hash_congr
    (hF : ∀ x y, U.floatEquality x y = true → U.hashFloat x = U.hashFloat y)
    (hS : ∀ x y, optSizeBeq U x y = true → U.hashOptSize x = U.hashOptSize y)
    (x y : TextAttributes F) (h : TextAttributes.beq U x y = true) :
    FragmentAttributes.hash U x = FragmentAttributes.hash U y := by
  simp only [TextAttributes.beq, Bool.and_eq_true, beq_iff_eq, and_assoc] at h
  obtain ⟨
    a1, a2, a3, a4, a5, a6, a7, a8, a9, a10, a11, a12, a13, a14, a15, a16, a17, a18, a19, a20,
    a21, a22, a23, a24, a25, a26, a27, a28⟩ := h
  unfold FragmentAttributes.hash
  rw [
    a1, a2, a3, a4, a5, a6, a7, a9, a10, a11, a12, a13, a14, hS _ _ a15, a16, a17, a18, a19,
    a20, a21, a22, hF _ _ a23, hF _ _ a24, hF _ _ a25, hF _ _ a26, hF _ _ a27, hF _ _ a28]

theorem fragment_hash_congr
    (hF : ∀ x y, U.floatEquality x y = true → U.hashFloat x = U.hashFloat y)
    (hS : ∀ x y, optSizeBeq U x y = true → U.hashOptSize x = U.hashOptSize y)
    (hV : ∀ v w : ShadowView, v.tag = w.tag → v.layoutMetrics = w.layoutMetrics →
      U.hashShadowView v = U.hashShadowView w)
    (f g : Fragment F) (h : Fragment.beq U f g = true) :
    Fragment.hash U f = Fragment.hash U g := by
  simp only [Fragment.beq, Bool.and_eq_true, beq_iff_eq] at h
  unfold Fragment.hash
  rw [h.1.1.1, fragmentAttributes_hash_congr U hF hS _ _ h.1.1.2, hV _ _ h.1.2 h.2, h.2]

/-- The structural hash agrees with `operator==` as far as the hashes of the parts do: when
`floatEquality`-related values and `==`-related sizes hash alike, and the hash of a
`ShadowView` depends on `tag` and `layoutMetrics` only, equal strings hash alike. -/
theorem attributedString_hash_congr
    (hF : ∀ x y, U.floatEquality x y = true → U.hashFloat x = U.hashFloat y)
    (hS : ∀ x y, optSizeBeq U x y = true → U.hashOptSize x = U.hashOptSize y)
    (hV : ∀ v w : ShadowView, v.tag = w.tag → v.layoutMetrics = w.layoutMetrics →
      U.hashShadowView v = U.hashShadowView w)
    (a b : AttributedString F) (h : AttributedString.beq U a b = true) :
    AttributedString.hash U a = AttributedString.hash U b :=
  foldl_hash_congr (Shard.beq U) U.hash_combine (Shard.hash U)
    (fun x y hxy =>
      foldl_hash_congr (Fragment.beq U) U.hash_combine (Fragment.hash U)
        (fragment_hash_congr U hF hS hV) x.fragments_ y.fragments_ hxy 0)
    a.shards_ b.shards_ h 0

end StructuralHash

end React
